import Mathlib

/-!
# Telemetry dashboard front end (`dashboard/frontend/app.js`)

A shallow embedding of the polling-and-render loop of the dashboard and the
properties of its formatting, classification and rendering rules.

## Modelling conventions

* A JavaScript Number is `JSNum`: `NaN`, the two infinities, or a finite value
  given by the exact rational it denotes (every IEEE-754 double is a rational;
  `+0` and `-0` are both `fin 0`, which no operation used by the program can
  tell apart).  Numeric literals of the source denote the value of the double
  they are read as, so `0.4` is `3602879701896397 / 2^53`, not `2/5`.
* A value handed to the program is a `JSVal`: what `JSON.parse` can return,
  plus `undefined`.  Property reads see own properties only; none of the keys
  the program reads is an inherited property of a built-in prototype.
  A string is a sequence of Unicode characters; its length and its indexed
  reads count UTF-16 code units, as JavaScript does.
* Arithmetic on Numbers rounds as IEEE-754 does: the one product the program
  forms, `seconds * 1000`, is the exact product rounded to the nearest double,
  ties to even.
* What the host environment fixes and the program cannot see into is a
  parameter (`Host`): the conversion of a string to a number, the text of a
  finite number in `Number::toString`, and the localized time-of-day text of
  `Intl.DateTimeFormat`.
* The page is `World`: the children of the four elements the script holds,
  the class list of the connection pill, the console and the requests sent.
  A statement that throws leaves every earlier mutation in place, so every
  effectful routine returns its completion together with the world it leaves.
* One refresh cycle is modelled as it runs when no other cycle interleaves at
  its `await` points.
-/

namespace Dashboard

/-! ## Values -/

/-- A JavaScript Number, finite values by their exact rational value. -/
inductive JSNum where
  | nan
  | posInf
  | negInf
  | fin (q : ℚ)
  deriving DecidableEq

/-- A JavaScript value as produced by `JSON.parse`, or `undefined`. -/
inductive JSVal where
  | undefined
  | null
  | bool (b : Bool)
  | num (n : JSNum)
  | str (s : String)
  | arr (items : List JSVal)
  | obj (fields : List (String × JSVal))

/-- The exceptions the program can meet. -/
inductive JSError where
  | typeError
  | rangeError
  | parseError
  deriving DecidableEq, Repr

deriving instance DecidableEq for Except

/-- The environment-defined conversions. -/
structure Host where
  /-- The conversion `StringToNumber` of ECMA-262. -/
  stringToNumber : String → JSNum
  /-- The operation `Number::toString` on a finite value. -/
  numberToString : ℚ → String
  /-- The text `fmt.format` gives a valid time value in milliseconds: the localized
  two-digit hour, minute and second. -/
  formatTime : ℤ → String

/-- The placeholder shown for a value that is not available. -/
def dash : String := "—"

/-! ## Number operations -/

/-- The relation `x < y` of JavaScript on Numbers. -/
def JSNum.lt : JSNum → JSNum → Bool
  | .nan, _ => false
  | _, .nan => false
  | .posInf, _ => false
  | .negInf, .negInf => false
  | .negInf, _ => true
  | .fin _, .posInf => true
  | .fin _, .negInf => false
  | .fin a, .fin b => decide (a < b)

/-- The test `Number.isNaN` on a Number. -/
def JSNum.isNaN : JSNum → Bool
  | .nan => true
  | _ => false

/-- The relation `x >= y` of JavaScript on Numbers: false when either side is
`NaN`, otherwise the negation of `x < y`. -/
def JSNum.ge (x y : JSNum) : Bool :=
  !x.isNaN && !y.isNaN && !(x.lt y)

/-- The relation `x <= y` of JavaScript on Numbers: false when either side is
`NaN`, otherwise the negation of `y < x`. -/
def JSNum.le (x y : JSNum) : Bool :=
  !x.isNaN && !y.isNaN && !(y.lt x)

/-- The operation `Number::toString`. -/
def numToStr (h : Host) : JSNum → String
  | .nan => "NaN"
  | .posInf => "Infinity"
  | .negInf => "-Infinity"
  | .fin q => h.numberToString q

/-! ## Rounding to a double -/

/-- The integer part of the binary logarithm of `n`, by fuel. -/
def binaryLogAux : ℕ → ℕ → ℕ
  | 0, _ => 0
  | fuel + 1, n => if n < 2 then 0 else binaryLogAux fuel (n / 2) + 1

/-- The integer part of the binary logarithm of a positive `n`. -/
def binaryLog (n : ℕ) : ℕ := binaryLogAux n n

/-- The integer part of the binary logarithm of the positive rational
`a / b`. -/
def floorLog2 (a b : ℕ) : ℤ :=
  let d : ℤ := (binaryLog a : ℤ) - (binaryLog b : ℤ)
  if b * 2 ^ d.toNat ≤ a * 2 ^ (-d).toNat then d else d - 1

/-- The integer nearest to `a / b`, the even one of two equally near. -/
def roundHalfEven (a b : ℕ) : ℕ :=
  if 2 * (a % b) < b then a / b
  else if b < 2 * (a % b) then a / b + 1
  else if (a / b) % 2 = 0 then a / b else a / b + 1

/-- The double nearest to the positive rational `a / b` (ties to even), as a
mantissa `m` and an exponent `e` standing for `m * 2^e`; `none` when the
rounding overflows to infinity. -/
def roundToDouble (a b : ℕ) : Option (ℕ × ℤ) :=
  let e : ℤ := max (floorLog2 a b) (-1022) - 52
  let m := roundHalfEven (a * 2 ^ (-e).toNat) (b * 2 ^ e.toNat)
  if 971 < e ∨ (e = 971 ∧ 2 ^ 53 ≤ m) then none else some (m, e)

/-! ## Conversions -/

/-- The conversion `ToBoolean`. -/
def toBoolean : JSVal → Bool
  | .undefined => false
  | .null => false
  | .bool b => b
  | .num .nan => false
  | .num (.fin q) => decide (q ≠ 0)
  | .num _ => true
  | .str s => decide (s ≠ "")
  | .arr _ => true
  | .obj _ => true

/-- The test `v == null`: true of `null` and `undefined` only. -/
def isNullish : JSVal → Bool
  | .undefined => true
  | .null => true
  | _ => false

/-- The expression `a || b`. -/
def jsOr (a b : JSVal) : JSVal := if toBoolean a then a else b

/-- The expression `a ?? b`. -/
def jsCoalesce (a b : JSVal) : JSVal := if isNullish a then b else a

/-- Whether an object has an own property of the given name. -/
def hasOwn (fields : List (String × JSVal)) (key : String) : Bool :=
  (fields.lookup key).isSome

mutual
/-- The conversion `ToString`.  A parsed object has no callable own property, so an object
carrying its own `toString` cannot be converted to a primitive (TypeError);
any other object is `[object Object]`; an array is its elements joined by
commas. -/
def toStr (h : Host) : JSVal → Except JSError String
  | .undefined => .ok "undefined"
  | .null => .ok "null"
  | .bool b => .ok (if b then "true" else "false")
  | .num n => .ok (numToStr h n)
  | .str s => .ok s
  | .arr items => (elemStrs h items).map (String.intercalate ",")
  | .obj fields => if hasOwn fields "toString" then .error .typeError else .ok "[object Object]"
/-- The strings `Array.prototype.join` puts between the separators: `null`
and `undefined` elements contribute the empty string. -/
def elemStrs (h : Host) : List JSVal → Except JSError (List String)
  | [] => .ok []
  | x :: rest =>
    match (match x with
      | .undefined => Except.ok ""
      | .null => Except.ok ""
      | y => toStr h y : Except JSError String) with
    | .error e => .error e
    | .ok s =>
      match elemStrs h rest with
      | .error e => .error e
      | .ok ts => .ok (s :: ts)
end

/-- The conversion `ToNumber` (that is, `Number(v)`). -/
def toNumber (h : Host) : JSVal → Except JSError JSNum
  | .undefined => .ok .nan
  | .null => .ok (.fin 0)
  | .bool b => .ok (.fin (if b then 1 else 0))
  | .num n => .ok n
  | .str s => .ok (h.stringToNumber s)
  | .arr items => (elemStrs h items).map (fun ts => h.stringToNumber (String.intercalate "," ts))
  | .obj fields => if hasOwn fields "toString" then .error .typeError else .ok .nan

/-- The UTF-16 code units of a string, each given by the character it
belongs to: a character of the basic plane is one unit, a character beyond
it is two, its surrogate halves. -/
def utf16Units : List Char → List Char
  | [] => []
  | c :: rest =>
    if c.toNat < 65536 then c :: utf16Units rest else c :: c :: utf16Units rest

/-- A property read `base.key` with a name key.  Reading from `null` or
`undefined` throws; a missing property is `undefined`. -/
def getProp (base : JSVal) (key : String) : Except JSError JSVal :=
  match base with
  | .undefined => .error .typeError
  | .null => .error .typeError
  | .obj fields => .ok ((fields.lookup key).getD .undefined)
  | .arr items => .ok (if key = "length" then .num (.fin items.length) else .undefined)
  | .str s => .ok (if key = "length" then .num (.fin (utf16Units s.data).length) else .undefined)
  | _ => .ok .undefined

/-- A property read `base[i]` with an integer index.  On a string it is the
one-unit string at that UTF-16 index; a surrogate half, which no `String`
holds alone, is stood for by the character it is half of (either is a
non-empty string that is no numeric literal). -/
def getIndex (base : JSVal) (i : ℕ) : Except JSError JSVal :=
  match base with
  | .undefined => .error .typeError
  | .null => .error .typeError
  | .obj fields => .ok ((fields.lookup (toString i)).getD .undefined)
  | .arr items => .ok ((items.get? i).getD .undefined)
  | .str s => .ok (match (utf16Units s.data).get? i with
      | some c => .str (String.singleton c)
      | none => .undefined)
  | _ => .ok .undefined

/-- An optional-chained read `base?.key`. -/
def getPropOpt (base : JSVal) (key : String) : JSVal :=
  match base with
  | .obj fields => (fields.lookup key).getD .undefined
  | .arr items => if key = "length" then .num (.fin items.length) else .undefined
  | .str s => if key = "length" then .num (.fin (utf16Units s.data).length) else .undefined
  | _ => .undefined

/-! ## `Number.prototype.toFixed` -/

/-- The integer `n` for which `n / 10^f` is closest to `|q|`, the larger one
when two are equally close. -/
def roundScaled (q : ℚ) (f : ℕ) : ℕ :=
  (2 * q.num.natAbs * 10 ^ f + q.den) / (2 * q.den)

/-- The decimal digits of `n`, most significant first, by fuel. -/
def decimalDigitsAux : ℕ → ℕ → List Char
  | 0, _ => []
  | fuel + 1, n =>
    if n < 10 then [Nat.digitChar n]
    else decimalDigitsAux fuel (n / 10) ++ [Nat.digitChar (n % 10)]

/-- The decimal representation of `n` with no leading zero (`0` for zero). -/
def decimalDigits (n : ℕ) : List Char := decimalDigitsAux (n + 1) n

/-- The conversion `ToIntegerOrInfinity` of a Number; `none` stands for an infinity. -/
def toIntegerOrInfinity : JSNum → Option ℤ
  | .nan => some 0
  | .posInf => none
  | .negInf => none
  | .fin q => some (q.num.tdiv q.den)

/-- The digits part of `toFixed` for a magnitude below `10^21`: the digits of
`n`, left-padded with zeros to `f + 1` characters, with the point before the
last `f` of them. -/
def fixedDigits (q : ℚ) (f : ℕ) : String :=
  let m := decimalDigits (roundScaled q f)
  if f = 0 then String.mk m
  else
    let m := if m.length ≤ f then List.replicate (f + 1 - m.length) '0' ++ m else m
    let k := m.length
    String.mk (m.take (k - f) ++ ['.'] ++ m.drop (k - f))

/-- The method call `x.toFixed(fractionDigits)`. -/
def toFixed (h : Host) (x : JSNum) (fractionDigits : JSVal) : Except JSError String :=
  match toNumber h fractionDigits with
  | .error e => .error e
  | .ok fd =>
    match toIntegerOrInfinity fd with
    | none => .error .rangeError
    | some f =>
      if f < 0 ∨ 100 < f then .error .rangeError
      else
        match x with
        | .fin q =>
          let s := if q < 0 then "-" else ""
          if (10 : ℚ) ^ 21 ≤ |q| then .ok (s ++ h.numberToString |q|)
          else .ok (s ++ fixedDigits q f.toNat)
        | y => .ok (numToStr h y)

/-! ## The formatter utilities of the script -/

/-- The function `fmtNumber(value, decimals = 2)`. -/
def fmtNumber (h : Host) (value : JSVal) (decimals : JSVal := .undefined) :
    Except JSError String :=
  let decimals := match decimals with
    | .undefined => JSVal.num (.fin 2)
    | d => d
  if isNullish value then .ok dash
  else
    match toNumber h value with
    | .error e => .error e
    | .ok n =>
      if n.isNaN then .ok dash
      else
        match toNumber h value with
        | .error e => .error e
        | .ok m => toFixed h m decimals

/-- A `good`/`bad` threshold pair. -/
structure Thresholds where
  good : JSNum
  bad : JSNum

/-- The function `classByVariant(value, thresholds)`.  The comparison of a value with a
Number threshold converts the value with `ToNumber`. -/
def classByVariant (h : Host) (value : JSVal) (thresholds : Thresholds) :
    Except JSError String :=
  let isNaNValue := match value with
    | .num n => n.isNaN
    | _ => false
  if isNullish value || isNaNValue then .ok ""
  else
    match toNumber h value with
    | .error e => .error e
    | .ok n =>
      if n.ge thresholds.good then .ok "success"
      else if n.le thresholds.bad then .ok "danger"
      else .ok ""

/-! ## The page -/

/-- A DOM node: a text node or an element with its class list and children. -/
inductive Node where
  | text (data : String)
  | elem (tag : String) (classes : List String) (children : List Node)

/-- The children an element has after `el.textContent = s`: a single text
node, or none when the string is empty. -/
def textNodes (s : String) : List Node :=
  if s = "" then [] else [.text s]

/-- The class list after `classList.add(token)`. -/
def classListAdd (classes : List String) (token : String) : List String :=
  if token ∈ classes then classes else classes ++ [token]

/-- The class list of a node (none for a text node). -/
def Node.classList : Node → List String
  | .text _ => []
  | .elem _ classes _ => classes

/-- The children of a node (none for a text node). -/
def Node.childNodes : Node → List Node
  | .text _ => []
  | .elem _ _ children => children

/-- What the script can see and change: the children of `#stats-grid`,
`#events-list`, `#serial-pill` and `#heartbeat`, the class list of the pill,
the console, and the requests sent so far. -/
structure World where
  statsGrid : List Node
  eventsList : List Node
  serialPill : List Node
  serialPillClass : List String
  heartbeat : List Node
  console : List (String × JSError)
  requests : List String

/-- A completion (normal or thrown) together with the world it leaves. -/
abbrev Step := Except JSError Unit × World

/-! ## `renderStats` -/

/-- One entry of the `items` array of `renderStats`. -/
structure StatItem where
  label : String
  value : String
  variant : String
  deriving DecidableEq

/-- The literal `0.4` of the source: the double nearest to two fifths. -/
def lit_0_4 : ℚ := mkRat 3602879701896397 9007199254740992

/-- The literal `0.75` of the source, which is exact. -/
def lit_0_75 : ℚ := mkRat 3 4

/-- The thresholds of the FPS card. -/
def fpsThresholds : Thresholds := ⟨.fin 12, .fin 4⟩

/-- The thresholds of the Last Score card. -/
def scoreThresholds : Thresholds := ⟨.fin lit_0_75, .fin lit_0_4⟩

/-- The constant `fps` (source line 27). -/
def fpsNumber (h : Host) (status : JSVal) : Except JSError JSNum := do
  toNumber h (jsOr (← getProp status "fps") (.num (.fin 0)))

/-- The constant `score` (source line 28). -/
def scoreText (h : Host) (status : JSVal) : Except JSError String := do
  fmtNumber h (← getProp status "score") (.num (.fin 2))

/-- The constants `pan` and `tilt` (source lines 29 and 30), which differ in
the key only. -/
def jointText (h : Host) (status : JSVal) (key : String) : Except JSError String := do
  if !isNullish (getPropOpt (← getProp status "joints") key) then
    let s ← fmtNumber h (← getProp (← getProp status "joints") key) (.num (.fin 1))
    pure (s ++ "°")
  else pure dash

/-- The constant `pixel` (source line 31). -/
def pixelText (h : Host) (status : JSVal) : Except JSError String := do
  if toBoolean (← getProp status "pixel") then
    let u ← fmtNumber h (← getProp (← getProp status "pixel") "u") (.num (.fin 1))
    let v ← fmtNumber h (← getProp (← getProp status "pixel") "v") (.num (.fin 1))
    pure ("(" ++ u ++ ", " ++ v ++ ")")
  else pure dash

/-- The constant `ground` (source line 32). -/
def groundText (h : Host) (status : JSVal) : Except JSError String := do
  if toBoolean (← getProp status "target") then
    let x ← fmtNumber h (← getIndex (← getProp status "target") 0) (.num (.fin 2))
    let y ← fmtNumber h (← getIndex (← getProp status "target") 1) (.num (.fin 2))
    let z ← fmtNumber h (← getIndex (← getProp status "target") 2) (.num (.fin 2))
    pure ("(" ++ x ++ ", " ++ y ++ ", " ++ z ++ ")")
  else pure dash

/-- The variant of the Last Score entry (source line 36). -/
def scoreVariant (h : Host) (status : JSVal) : Except JSError String := do
  let n ← toNumber h (jsCoalesce (← getProp status "score") (.num (.fin 0)))
  classByVariant h (.num n) scoreThresholds

/-- The `items` array of `renderStats` (source lines 27 to 41), in evaluation
order; a throw at any read or conversion ends the computation. -/
def statItems (h : Host) (status : JSVal) : Except JSError (List StatItem) := do
  let fps ← fpsNumber h status
  let score ← scoreText h status
  let pan ← jointText h status "pan"
  let tilt ← jointText h status "tilt"
  let pixel ← pixelText h status
  let ground ← groundText h status
  let fpsValue ← toFixed h fps (.num (.fin 1))
  let fpsVariant ← classByVariant h (.num fps) fpsThresholds
  let scoreVariant ← scoreVariant h status
  pure [
    ⟨"FPS", fpsValue, fpsVariant⟩,
    ⟨"Last Score", score, scoreVariant⟩,
    ⟨"Pan", pan, ""⟩,
    ⟨"Tilt", tilt, ""⟩,
    ⟨"Pixel", pixel, ""⟩,
    ⟨"Ground XYZ", ground, ""⟩]

/-- The card built for one item by the loop body of `renderStats`. -/
def statCard (item : StatItem) : Node :=
  let label := Node.elem "div" ["stat-label"] (textNodes item.label)
  let classes := if item.variant ≠ "" then classListAdd ["stat-value"] item.variant
    else ["stat-value"]
  let value := Node.elem "div" classes (textNodes item.value)
  .elem "div" ["stat-card"] [label, value]

/-- The function `renderStats(status)`: clear the grid, compute the items, append a card
per item. -/
def renderStats (h : Host) (status : JSVal) (w : World) : Step :=
  let w := { w with statsGrid := [] }
  match statItems h status with
  | .error e => (.error e, w)
  | .ok items =>
    (.ok (), items.foldl (fun w item => { w with statsGrid := w.statsGrid ++ [statCard item] }) w)

/-! ## `renderEvents` -/

/-- The test `v === s` against a string literal. -/
def strictEqStr (v : JSVal) (s : String) : Bool :=
  match v with
  | .str t => t == s
  | _ => false

/-- The placeholder card: the element whose `innerHTML` is the two fixed
`div`s. -/
def placeholderCard : Node :=
  .elem "div" ["event-card"] [
    .elem "div" ["title"] [.text "No events yet"],
    .elem "div" ["meta"] [.text "Waiting for detections…"]]

/-- The text given to the title of an event card (source lines 78 to 88). -/
def titleText (h : Host) (event : JSVal) : Except JSError String := do
  if strictEqStr (← getProp event "message") "target" then
    let u ← fmtNumber h (getPropOpt (← getProp event "pixel") "u") (.num (.fin 0))
    let v ← fmtNumber h (getPropOpt (← getProp event "pixel") "v") (.num (.fin 0))
    pure ("Target @ " ++ u ++ ", " ++ v)
  else if strictEqStr (← getProp event "message") "no_target" then
    pure "No target"
  else if strictEqStr (← getProp event "message") "ik_unavailable" then
    pure "IK unavailable"
  else
    toStr h (jsOr (← getProp event "message") (.str "event"))

/-- The time value of `new Date(seconds * 1000)`.  The product is the double
nearest to the exact product, `m * 2^e` in magnitude; `none` is the invalid
date (a product that is not finite or lies beyond 8.64e15 ms); a valid
product is truncated toward zero to an integer. -/
def timeValue : JSNum → Option ℤ
  | .fin q =>
    if q.num = 0 then some 0
    else
      match roundToDouble (q.num.natAbs * 1000) q.den with
      | none => none
      | some (m, e) =>
        if m * 2 ^ e.toNat ≤ 8640000000000000 * 2 ^ (-e).toNat then
          some (q.num.sign * ((m * 2 ^ e.toNat / 2 ^ (-e).toNat : ℕ) : ℤ))
        else none
  | _ => none

/-- The call `fmt.format(dt)`: a RangeError on the invalid date. -/
def formatDate (h : Host) : Option ℤ → Except JSError String
  | none => .error .rangeError
  | some t => .ok (h.formatTime t)

/-- The text given to the meta line of an event card (source lines 92 to
97). -/
def metaText (h : Host) (event : JSVal) : Except JSError String := do
  if toBoolean (← getProp event "timestamp") then
    let seconds ← toNumber h (← getProp event "timestamp")
    let time ← formatDate h (timeValue seconds)
    let conf ← fmtNumber h (← getProp event "score") (.num (.fin 2))
    pure (time ++ " · conf " ++ conf)
  else
    pure dash

/-- The badge of an event card (source lines 99 to 110). -/
def badgeNode (event : JSVal) : Except JSError Node := do
  if toBoolean (← getProp event "serial_sent") then
    pure (.elem "span" (classListAdd ["badge"] "success") (textNodes "dispatched"))
  else if toBoolean (← getProp event "has_target") then
    pure (.elem "span" (classListAdd ["badge"] "warning") (textNodes "holding"))
  else
    pure (.elem "span" (classListAdd ["badge"] "danger") (textNodes "idle"))

/-- The card built for one event by the loop body of `renderEvents`: title,
badge, meta, in that order of children. -/
def eventCard (h : Host) (event : JSVal) : Except JSError Node := do
  let title := Node.elem "div" ["title"] (textNodes (← titleText h event))
  let meta := Node.elem "div" ["meta"] (textNodes (← metaText h event))
  let badge ← badgeNode event
  pure (.elem "div" ["event-card"] [title, badge, meta])

/-- The `for ... of` loop of `renderEvents`: a throw while a card is being
built leaves the cards appended before it. -/
def renderEventsLoop (h : Host) : List JSVal → World → Step
  | [], w => (.ok (), w)
  | event :: rest, w =>
    match eventCard h event with
    | .error e => (.error e, w)
    | .ok card => renderEventsLoop h rest { w with eventsList := w.eventsList ++ [card] }

/-- The function `renderEvents(events)`. -/
def renderEvents (h : Host) (events : JSVal) (w : World) : Step :=
  let w := { w with eventsList := [] }
  match events with
  | .arr (event :: rest) => renderEventsLoop h (event :: rest) w
  | _ => (.ok (), { w with eventsList := w.eventsList ++ [placeholderCard] })

/-! ## `refreshLoop` -/

/-- How a `fetch` followed by `.json()` can end. -/
inductive FetchResult where
  | rejected
  | unparsable
  | json (body : JSVal)

/-- The steps `await fetch(url)` then `await res.json()`: the request is recorded; a
rejected fetch and a body that is not JSON both throw. -/
def fetchJson (net : String → FetchResult) (url : String) (w : World) :
    Except JSError JSVal × World :=
  let w := { w with requests := w.requests ++ [url] }
  match net url with
  | .rejected => (.error .typeError, w)
  | .unparsable => (.error .parseError, w)
  | .json body => (.ok body, w)

/-- The call `console.error(message, err)`. -/
def consoleError (message : String) (err : JSError) (w : World) : Step :=
  (.ok (), { w with console := w.console ++ [(message, err)] })

/-- The statement `try body catch (err) handler`. -/
def tryCatch (body : World → Step) (handler : JSError → World → Step) (w : World) : Step :=
  match body w with
  | (.ok (), w) => (.ok (), w)
  | (.error e, w) => handler e w

/-- Sequential composition of two statements. -/
def andThen (first second : World → Step) (w : World) : Step :=
  match first w with
  | (.ok (), w) => second w
  | (.error e, w) => (.error e, w)

/-- The text of the connection pill (source line 126). -/
def pillText (h : Host) (status connected : JSVal) : Except JSError String := do
  if toBoolean connected then
    let port ← toStr h (jsOr (← getProp status "serial_port") (.str "connected"))
    pure ("Serial: " ++ port)
  else
    pure "Serial: offline"

/-- The rest of the first `try` block once the status is rendered (source
lines 125 to 137). -/
def showConnection (h : Host) (status : JSVal) (w : World) : Step :=
  match getProp status "serial_connected" with
  | .error e => (.error e, w)
  | .ok connected =>
    match pillText h status connected with
    | .error e => (.error e, w)
    | .ok text =>
      let w := { w with serialPill := textNodes text }
      let w := { w with serialPillClass := ["status-pill"] }
      let token := if toBoolean connected then "success" else "danger"
      let w := { w with serialPillClass := classListAdd w.serialPillClass token }
      match getProp status "last_update" with
      | .error e => (.error e, w)
      | .ok lastUpdate =>
        if toBoolean lastUpdate then
          match toNumber h lastUpdate with
          | .error e => (.error e, w)
          | .ok seconds =>
            match formatDate h (timeValue seconds) with
            | .error e => (.error e, w)
            | .ok time => (.ok (), { w with heartbeat := textNodes time })
        else (.ok (), w)

/-- The body of the first `try` block. -/
def statusBlock (h : Host) (net : String → FetchResult) (w : World) : Step :=
  match fetchJson net "/api/status" w with
  | (.error e, w) => (.error e, w)
  | (.ok status, w) => andThen (renderStats h status) (showConnection h status) w

/-- The body of the second `try` block. -/
def eventsBlock (h : Host) (net : String → FetchResult) (w : World) : Step :=
  match fetchJson net "/api/events?limit=30" w with
  | (.error e, w) => (.error e, w)
  | (.ok events, w) =>
    match getProp events "events" with
    | .error e => (.error e, w)
    | .ok list => renderEvents h (jsOr list (.arr [])) w

/-- The function `refreshLoop()`: one refresh cycle. -/
def refreshLoop (h : Host) (net : String → FetchResult) : World → Step :=
  andThen
    (tryCatch (statusBlock h net) (consoleError "status poll failed"))
    (tryCatch (eventsBlock h net) (consoleError "events poll failed"))

/-! ## A concrete host

The conversions of ECMA-262 worked out on exact values, and the clock of a
viewer in UTC whose locale writes the time of day on 24 hours.  The worked
examples below are run on this host. -/

/-- Whether the decimal `s * 10^p` rounds to the double of value `a / b`. -/
def roundsTo (s : ℕ) (p : ℤ) (a b : ℕ) : Bool :=
  match roundToDouble (s * 10 ^ p.toNat) (10 ^ (-p).toNat) with
  | none => false
  | some (m, e) => decide (m * 2 ^ e.toNat * b = a * 2 ^ (-e).toNat)

/-- The `n` with `10^(n-1) ≤ a / b < 10^n` for `a / b < 1`, searched downward
from zero. -/
def decimalExponentBelowOne (a b : ℕ) : ℕ → ℕ → ℤ
  | 0, j => -(j : ℤ)
  | fuel + 1, j =>
    if b ≤ a * 10 ^ (j + 1) then -(j : ℤ) else decimalExponentBelowOne a b fuel (j + 1)

/-- The `n` with `10^(n-1) ≤ a / b < 10^n`. -/
def decimalExponent (a b : ℕ) : ℤ :=
  if b ≤ a then ((decimalDigits (a / b)).length : ℤ) else decimalExponentBelowOne a b 400 0

/-- The fewest digits `s` (`k` of them, tried from `k` upward) such that
`s * 10^(n - k)` rounds to `a / b`; of two candidates the nearer to `a / b`,
the even one when equally near. -/
def shortestDigits (a b : ℕ) (n : ℤ) : ℕ → ℕ → ℕ × ℕ
  | 0, k => (k, roundHalfEven (a * 10 ^ (k - n).toNat) (b * 10 ^ (n - k).toNat))
  | fuel + 1, k =>
    let p : ℤ := n - k
    let lo := (a * 10 ^ (-p).toNat) / (b * 10 ^ p.toNat)
    let hi := lo + 1
    let lowNearer := decide (2 * a * 10 ^ (-p).toNat < (2 * lo + 1) * 10 ^ p.toNat * b)
    let tie := decide (2 * a * 10 ^ (-p).toNat = (2 * lo + 1) * 10 ^ p.toNat * b)
    if roundsTo lo p a b && roundsTo hi p a b then
      if lowNearer || (tie && lo % 2 == 0) then (k, lo) else (k, hi)
    else if roundsTo lo p a b then (k, lo)
    else if roundsTo hi p a b then (k, hi)
    else shortestDigits a b n fuel (k + 1)

/-- The text of a decimal exponent: its sign and its digits. -/
def exponentText (e : ℤ) : List Char :=
  (if e < 0 then ['-'] else ['+']) ++ decimalDigits e.natAbs

/-- The operation `Number::toString` on the positive double of value `a / b`. -/
def positiveToString (a b : ℕ) : String :=
  let n0 := decimalExponent a b
  let found := shortestDigits a b n0 16 1
  let k0 := found.1
  let s0 := found.2
  -- a candidate that reached the next power of ten is the digit 1 one place up
  let k : ℕ := if s0 = 10 ^ k0 then 1 else k0
  let s : ℕ := if s0 = 10 ^ k0 then 1 else s0
  let n : ℤ := if s0 = 10 ^ k0 then n0 + 1 else n0
  let digits := decimalDigits s
  if (k : ℤ) ≤ n ∧ n ≤ 21 then
    String.mk (digits ++ List.replicate (n - k).toNat '0')
  else if 0 < n ∧ n ≤ 21 then
    String.mk (digits.take n.toNat ++ ['.'] ++ digits.drop n.toNat)
  else if -6 < n ∧ n ≤ 0 then
    String.mk (['0', '.'] ++ List.replicate (-n).toNat '0' ++ digits)
  else if k = 1 then
    String.mk (digits ++ ['e'] ++ exponentText (n - 1))
  else
    String.mk (digits.take 1 ++ ['.'] ++ digits.drop 1 ++ ['e'] ++ exponentText (n - 1))

/-- The operation `Number::toString` on a finite value. -/
def finiteToString (q : ℚ) : String :=
  if q.num = 0 then "0"
  else if q.num < 0 then "-" ++ positiveToString q.num.natAbs q.den
  else positiveToString q.num.natAbs q.den

/-- The characters `StringToNumber` strips from both ends: white space and
line terminators. -/
def isStrWhiteSpace (c : Char) : Bool :=
  c.toNat ∈ [0x09, 0x0A, 0x0B, 0x0C, 0x0D, 0x20, 0xA0, 0x1680, 0x2028, 0x2029,
    0x202F, 0x205F, 0x3000, 0xFEFF] || (0x2000 ≤ c.toNat && c.toNat ≤ 0x200A)

/-- The value of a digit character in a radix up to 16, if it is one. -/
def digitValue (radix : ℕ) (c : Char) : Option ℕ :=
  let v :=
    if '0' ≤ c ∧ c ≤ '9' then c.toNat - 48
    else if 'a' ≤ c ∧ c ≤ 'f' then c.toNat - 87
    else if 'A' ≤ c ∧ c ≤ 'F' then c.toNat - 55
    else 16
  if v < radix then some v else none

/-- The value of a non-empty run of digits in the radix; `none` if the run is
empty or holds another character. -/
def digitsValue (radix : ℕ) (cs : List Char) : Option ℕ :=
  if cs = [] then none
  else cs.foldl (fun acc c =>
    match acc, digitValue radix c with
    | some n, some d => some (n * radix + d)
    | _, _ => none) (some 0)

/-- The Number of the exact value `a * 10^p` (`a` a natural number): the
nearest double, an infinity on overflow. -/
def decimalToNumber (negative : Bool) (a : ℕ) (p : ℤ) : JSNum :=
  if a = 0 then .fin 0
  else if 310 < ((decimalDigits a).length : ℤ) + p then (if negative then .negInf else .posInf)
  else if ((decimalDigits a).length : ℤ) + p < -330 then .fin 0
  else
    match roundToDouble (a * 10 ^ p.toNat) (10 ^ (-p).toNat) with
    | none => if negative then .negInf else .posInf
    | some (m, e) =>
      .fin (mkRat (if negative then -((m * 2 ^ e.toNat : ℕ) : ℤ) else ((m * 2 ^ e.toNat : ℕ) : ℤ))
        (2 ^ (-e).toNat))

/-- The exponent part of a decimal literal: empty, or `e` or `E`, an optional
sign and digits; `none` if malformed. -/
def exponentPart : List Char → Option ℤ
  | [] => some 0
  | c :: rest =>
    if c = 'e' ∨ c = 'E' then
      match rest with
      | '-' :: ds => (digitsValue 10 ds).map (fun n => -(n : ℤ))
      | '+' :: ds => (digitsValue 10 ds).map (fun n => (n : ℤ))
      | ds => (digitsValue 10 ds).map (fun n => (n : ℤ))
    else none

/-- An unsigned decimal literal: `Infinity`, or digits with an optional
fraction and exponent, at least one digit before the exponent. -/
def unsignedDecimal (negative : Bool) (cs : List Char) : JSNum :=
  if cs = "Infinity".data then (if negative then .negInf else .posInf)
  else
    let intPart := cs.takeWhile Char.isDigit
    let afterInt := cs.dropWhile Char.isDigit
    let fracPart := match afterInt with
      | '.' :: rest => rest.takeWhile Char.isDigit
      | _ => []
    let afterFrac := match afterInt with
      | '.' :: rest => rest.dropWhile Char.isDigit
      | _ => afterInt
    if intPart = [] ∧ fracPart = [] then .nan
    else
      match digitsValue 10 ('0' :: (intPart ++ fracPart)), exponentPart afterFrac with
      | some a, some e => decimalToNumber negative a (e - fracPart.length)
      | _, _ => .nan

/-- A string numeric literal with the white space already stripped. -/
def stringNumericLiteral (cs : List Char) : JSNum :=
  match cs with
  | [] => .fin 0
  | '0' :: 'x' :: ds | '0' :: 'X' :: ds =>
    match digitsValue 16 ds with
    | some a => decimalToNumber false a 0
    | none => .nan
  | '0' :: 'o' :: ds | '0' :: 'O' :: ds =>
    match digitsValue 8 ds with
    | some a => decimalToNumber false a 0
    | none => .nan
  | '0' :: 'b' :: ds | '0' :: 'B' :: ds =>
    match digitsValue 2 ds with
    | some a => decimalToNumber false a 0
    | none => .nan
  | '-' :: rest => unsignedDecimal true rest
  | '+' :: rest => unsignedDecimal false rest
  | _ => unsignedDecimal false cs

/-- The conversion `StringToNumber`. -/
def stringToNumber (s : String) : JSNum :=
  stringNumericLiteral
    ((s.data.dropWhile isStrWhiteSpace).reverse.dropWhile isStrWhiteSpace).reverse

/-- Two decimal digits of a number below one hundred. -/
def twoDigits (n : ℕ) : List Char := [Nat.digitChar (n / 10), Nat.digitChar (n % 10)]

/-- The time of day of a time value in UTC, on 24 hours, as `hh:mm:ss`. -/
def clockText (t : ℤ) : String :=
  let secondOfDay := ((t / 1000) % 86400).toNat
  String.mk (twoDigits (secondOfDay / 3600) ++ [':'] ++ twoDigits (secondOfDay / 60 % 60)
    ++ [':'] ++ twoDigits (secondOfDay % 60))

/-- The host of a viewer in UTC with a 24-hour locale. -/
def utcHost : Host := ⟨stringToNumber, finiteToString, clockText⟩

/-- A page whose regions are empty and on which nothing has happened. -/
def blankPage : World := ⟨[], [], [], [], [], [], []⟩

/-- The double `10.6`. -/
def lit_10_6 : ℚ := mkRat 5967269506265907 562949953421312

/-- The double `20.4`. -/
def lit_20_4 : ℚ := mkRat 2871044762448691 140737488355328

/-- The event `{message: "target", pixel: {u: 10.6, v: 20.4}, serial_sent:
true, has_target: true}`. -/
def targetEvent : JSVal :=
  .obj [("message", .str "target"),
    ("pixel", .obj [("u", .num (.fin lit_10_6)), ("v", .num (.fin lit_20_4))]),
    ("serial_sent", .bool true), ("has_target", .bool true)]

/-- A network on which the status request is rejected and the events request
returns the single event `targetEvent`. -/
def statusDownNet (url : String) : FetchResult :=
  if url = "/api/events?limit=30" then .json (.obj [("events", .arr [targetEvent])])
  else .rejected

/-- The double `0.2`. -/
def lit_0_2 : ℚ := mkRat 3602879701896397 18014398509481984

/-- The snapshot `{fps: 15, score: 0.2, serial_connected: false, serial_port:
"/dev/ttyUSB0"}`. -/
def offlineStatus : JSVal :=
  .obj [("fps", .num (.fin 15)), ("score", .num (.fin lit_0_2)),
    ("serial_connected", .bool false), ("serial_port", .str "/dev/ttyUSB0")]

/-- The snapshot `{fps: 15, serial_connected: true, serial_port:
"/dev/ttyUSB0", last_update: 1700000000}`. -/
def liveStatus : JSVal :=
  .obj [("fps", .num (.fin 15)), ("serial_connected", .bool true),
    ("serial_port", .str "/dev/ttyUSB0"), ("last_update", .num (.fin 1700000000))]

/-- The snapshot `{serial_connected: true, last_update: 0}`. -/
def epochStatus : JSVal :=
  .obj [("serial_connected", .bool true), ("last_update", .num (.fin 0))]

/-- The event `{message: "no_target", timestamp: 0, score: 0.5}`. -/
def epochEvent : JSVal :=
  .obj [("message", .str "no_target"), ("timestamp", .num (.fin 0)),
    ("score", .num (.fin (mkRat 1 2)))]

/-- The event `{message: "no_target", timestamp: 1700000000, score: 0.5,
has_target: true}`. -/
def datedEvent : JSVal :=
  .obj [("message", .str "no_target"), ("timestamp", .num (.fin 1700000000)),
    ("score", .num (.fin (mkRat 1 2))), ("has_target", .bool true)]

/-- The double `-7763362976592.001`, a time in the year 244 thousand BC. -/
def lit_ancient : ℚ := mkRat (-7949683688030209) 1024

/-- The double `1700000000.29`. -/
def lit_fraction : ℚ := mkRat 1782579200304087 1048576

/-- The snapshot `{serial_connected: true, last_update:
-7763362976592.001}`. -/
def ancientStatus : JSVal :=
  .obj [("serial_connected", .bool true), ("last_update", .num (.fin lit_ancient))]

/-- The event `{message: "no_target", timestamp: 1700000000.29, score:
0.5}`. -/
def fractionEvent : JSVal :=
  .obj [("message", .str "no_target"), ("timestamp", .num (.fin lit_fraction)),
    ("score", .num (.fin (mkRat 1 2)))]

/-- A network on which the status request returns the given snapshot and the
events request is rejected. -/
def statusNet (status : JSVal) (url : String) : FetchResult :=
  if url = "/api/status" then .json status else .rejected

/-- A network on which every request is rejected. -/
def downNet (_ : String) : FetchResult := .rejected

/-- A page that shows a metric card, a connected pill and the heartbeat
`12:34:56` from an earlier cycle. -/
def shownPage : World :=
  { blankPage with
    statsGrid := [.elem "div" ["stat-card"] [.text "earlier"]]
    serialPill := [.text "Serial: /dev/ttyUSB0"]
    serialPillClass := ["status-pill", "success"]
    heartbeat := [.text "12:34:56"] }

/-! ## Notions used to state the properties -/

mutual
/-- A value is plain when no object in it carries an own `toString`
property, so that every conversion of it to a primitive succeeds. -/
def JSVal.plain : JSVal → Bool
  | .arr items => plainItems items
  | .obj fields => !hasOwn fields "toString" && plainFields fields
  | _ => true
/-- Every element is plain. -/
def plainItems : List JSVal → Bool
  | [] => true
  | x :: rest => x.plain && plainItems rest
/-- Every property value is plain. -/
def plainFields : List (String × JSVal) → Bool
  | [] => true
  | (_, x) :: rest => x.plain && plainFields rest
end

mutual
/-- Whether the node or one of its descendants has the class. -/
def Node.hasClass (cls : String) : Node → Bool
  | .text _ => false
  | .elem _ classes children => decide (cls ∈ classes) || anyHasClass cls children
/-- Whether one of the nodes, or one of their descendants, has the class. -/
def anyHasClass (cls : String) : List Node → Bool
  | [] => false
  | node :: rest => node.hasClass cls || anyHasClass cls rest
end

/-- The text of a coordinate rounded to the nearest integer: its decimal
digits below `10^21`; from `10^21` on, where every double is an integer, what
`Number::toString` writes for it. -/
def coordinateText (h : Host) (x : ℚ) : String :=
  if |x| < (10 : ℚ) ^ 21 then
    (if x < 0 then "-" else "") ++ String.mk (decimalDigits (round |x|).toNat)
  else (if x < 0 then "-" else "") ++ h.numberToString |x|

/-- A metric card: the label element and the value element with its
classes. -/
def metricCard (label value : String) (classes : List String) : Node :=
  .elem "div" ["stat-card"] [
    .elem "div" ["stat-label"] [.text label],
    .elem "div" classes (textNodes value)]

/-- The natural number a string of decimal digits denotes. -/
def digitsToNat (cs : List Char) : ℕ :=
  cs.foldl (fun acc c => 10 * acc + (c.toNat - 48)) 0

/-! ## Conversions and reads on plain values -/

theorem getProp_of_not_nullish (v : JSVal) (key : String) (hv : isNullish v = false) :
    getProp v key = .ok (getPropOpt v key) := by
  cases v <;> simp_all [getProp, getPropOpt, isNullish]

theorem getIndex_ok_of_not_nullish (v : JSVal) (i : ℕ) (hv : isNullish v = false) :
    ∃ x, getIndex v i = .ok x := by
  cases v <;> simp_all [getIndex, isNullish]

theorem not_nullish_of_toBoolean (v : JSVal) (hv : toBoolean v = true) : isNullish v = false := by
  cases v <;> simp_all [toBoolean, isNullish]

theorem plain_lookup (fields : List (String × JSVal)) (key : String)
    (hp : plainFields fields = true) : ((fields.lookup key).getD .undefined).plain = true := by
  induction fields with
  | nil => simp [List.lookup, JSVal.plain]
  | cons kv rest ih =>
    obtain ⟨k, x⟩ := kv
    simp only [plainFields, Bool.and_eq_true] at hp
    simp only [List.lookup]
    cases hk : key == k
    · simpa using ih hp.2
    · simpa using hp.1

theorem plain_get? (items : List JSVal) (i : ℕ)
    (hp : plainItems items = true) : ((items.get? i).getD .undefined).plain = true := by
  induction items generalizing i with
  | nil => simp [JSVal.plain]
  | cons x rest ih =>
    simp only [plainItems, Bool.and_eq_true] at hp
    cases i with
    | zero => simpa using hp.1
    | succ j => simpa using ih j hp.2

theorem plain_getPropOpt (v : JSVal) (key : String) (hp : v.plain = true) :
    (getPropOpt v key).plain = true := by
  cases v with
  | obj fields =>
    simp only [JSVal.plain, Bool.and_eq_true] at hp
    simpa [getPropOpt] using plain_lookup fields key hp.2
  | arr items => simp only [getPropOpt]; split <;> simp [JSVal.plain]
  | str s => simp only [getPropOpt]; split <;> simp [JSVal.plain]
  | _ => simp [getPropOpt, JSVal.plain]

theorem plain_getIndex (v x : JSVal) (i : ℕ) (hp : v.plain = true)
    (hx : getIndex v i = .ok x) : x.plain = true := by
  cases v with
  | obj fields =>
    simp only [JSVal.plain, Bool.and_eq_true] at hp
    simp only [getIndex, Except.ok.injEq] at hx
    subst hx
    exact plain_lookup fields _ hp.2
  | arr items =>
    simp only [JSVal.plain] at hp
    simp only [getIndex, Except.ok.injEq] at hx
    subst hx
    exact plain_get? items i hp
  | str s =>
    simp only [getIndex, Except.ok.injEq] at hx
    subst hx
    split <;> simp [JSVal.plain]
  | undefined => simp [getIndex] at hx
  | null => simp [getIndex] at hx
  | bool b => simp only [getIndex, Except.ok.injEq] at hx; subst hx; simp [JSVal.plain]
  | num n => simp only [getIndex, Except.ok.injEq] at hx; subst hx; simp [JSVal.plain]

mutual
theorem toStr_ok_of_plain (h : Host) : ∀ v : JSVal, v.plain = true → ∃ s, toStr h v = .ok s
  | .undefined, _ => ⟨_, rfl⟩
  | .null, _ => ⟨_, rfl⟩
  | .bool _, _ => ⟨_, rfl⟩
  | .num _, _ => ⟨_, rfl⟩
  | .str _, _ => ⟨_, rfl⟩
  | .arr items, hp => by
    obtain ⟨ts, hts⟩ := elemStrs_ok_of_plain h items (by simpa [JSVal.plain] using hp)
    exact ⟨String.intercalate "," ts, by simp [toStr, hts, Except.map]⟩
  | .obj fields, hp => by
    simp only [JSVal.plain, Bool.and_eq_true, Bool.not_eq_true'] at hp
    simp [toStr, hp.1]
theorem elemStrs_ok_of_plain (h : Host) :
    ∀ items : List JSVal, plainItems items = true → ∃ ts, elemStrs h items = .ok ts
  | [], _ => ⟨_, rfl⟩
  | x :: rest, hp => by
    simp only [plainItems, Bool.and_eq_true] at hp
    obtain ⟨t, ht⟩ := elemStrs_ok_of_plain h rest hp.2
    obtain ⟨s, hs⟩ := toStr_ok_of_plain h x hp.1
    cases x <;> simp_all [elemStrs]
end

theorem toNumber_ok_of_plain (h : Host) (v : JSVal) (hp : v.plain = true) :
    ∃ n, toNumber h v = .ok n := by
  cases v with
  | arr items =>
    obtain ⟨ts, hts⟩ := elemStrs_ok_of_plain h items (by simpa [JSVal.plain] using hp)
    exact ⟨h.stringToNumber (String.intercalate "," ts), by simp [toNumber, hts, Except.map]⟩
  | obj fields =>
    simp only [JSVal.plain, Bool.and_eq_true, Bool.not_eq_true'] at hp
    simp [toNumber, hp.1]
  | _ => simp [toNumber]

/-! ## `toFixed` and `fmtNumber` at a literal precision -/

theorem toIntegerOrInfinity_natCast (d : ℕ) :
    toIntegerOrInfinity (.fin (d : ℚ)) = some (d : ℤ) := by
  simp [toIntegerOrInfinity]

theorem toFixed_fin (h : Host) (q : ℚ) (d : ℕ) (hd : d ≤ 100) :
    toFixed h (.fin q) (.num (.fin (d : ℚ))) =
      .ok ((if q < 0 then "-" else "") ++
        (if (10 : ℚ) ^ 21 ≤ |q| then h.numberToString |q| else fixedDigits q d)) := by
  have h1 : ¬ ((d : ℤ) < 0 ∨ 100 < (d : ℤ)) := by omega
  simp only [toFixed, toNumber, toIntegerOrInfinity_natCast, h1, if_false, Int.toNat_ofNat]
  split <;> rfl

theorem toFixed_not_fin (h : Host) (x : JSNum) (d : ℕ) (hd : d ≤ 100)
    (hx : ∀ q, x ≠ .fin q) :
    toFixed h x (.num (.fin (d : ℚ))) = .ok (numToStr h x) := by
  have h1 : ¬ ((d : ℤ) < 0 ∨ 100 < (d : ℤ)) := by omega
  cases x with
  | fin q => exact absurd rfl (hx q)
  | _ => simp only [toFixed, toNumber, toIntegerOrInfinity_natCast, h1, if_false]

theorem toFixed_ok (h : Host) (x : JSNum) (d : ℕ) (hd : d ≤ 100) :
    ∃ s, toFixed h x (.num (.fin (d : ℚ))) = .ok s := by
  cases x with
  | fin q => exact ⟨_, toFixed_fin h q d hd⟩
  | nan => exact ⟨_, toFixed_not_fin h _ d hd (by simp)⟩
  | posInf => exact ⟨_, toFixed_not_fin h _ d hd (by simp)⟩
  | negInf => exact ⟨_, toFixed_not_fin h _ d hd (by simp)⟩

theorem fmtNumber_nullish (h : Host) (v d : JSVal) (hv : isNullish v = true) :
    fmtNumber h v d = .ok dash := by
  simp [fmtNumber, hv]

theorem fmtNumber_of_toNumber (h : Host) (v d : JSVal) (n : JSNum) (hd : d ≠ .undefined)
    (hv : isNullish v = false) (hn : toNumber h v = .ok n) :
    fmtNumber h v d = if n.isNaN then .ok dash else toFixed h n d := by
  have hd2 : (match d with | .undefined => JSVal.num (.fin 2) | d => d) = d := by
    cases d <;> first | rfl | exact absurd rfl hd
  simp only [fmtNumber, hv, hn, hd2]
  simp

theorem fmtNumber_ok_of_plain (h : Host) (v : JSVal) (d : ℕ) (hd : d ≤ 100)
    (hp : v.plain = true) : ∃ s, fmtNumber h v (.num (.fin (d : ℚ))) = .ok s := by
  cases hv : isNullish v
  · obtain ⟨n, hn⟩ := toNumber_ok_of_plain h v hp
    rw [fmtNumber_of_toNumber h v _ n (by simp) hv hn]
    split
    · exact ⟨_, rfl⟩
    · exact toFixed_ok h n d hd
  · exact ⟨_, fmtNumber_nullish h v _ hv⟩

/-! ## The parts of `renderStats` -/

theorem plain_jsOr (a b : JSVal) (ha : a.plain = true) (hb : b.plain = true) :
    (jsOr a b).plain = true := by
  unfold jsOr; split <;> assumption

theorem plain_jsCoalesce (a b : JSVal) (ha : a.plain = true) (hb : b.plain = true) :
    (jsCoalesce a b).plain = true := by
  unfold jsCoalesce; split <;> assumption

theorem classByVariant_num (h : Host) (n : JSNum) (t : Thresholds) :
    classByVariant h (.num n) t =
      .ok (if n.isNaN then "" else if n.ge t.good then "success"
        else if n.le t.bad then "danger" else "") := by
  cases n <;> simp [classByVariant, isNullish, toNumber, JSNum.isNaN] <;>
    (split_ifs <;> rfl)

theorem fpsNumber_ok (h : Host) (status : JSVal) (hs : isNullish status = false)
    (hp : status.plain = true) : ∃ n, fpsNumber h status = .ok n := by
  obtain ⟨n, hn⟩ := toNumber_ok_of_plain h
    (jsOr (getPropOpt status "fps") (.num (.fin 0)))
    (plain_jsOr _ _ (plain_getPropOpt _ _ hp) rfl)
  exact ⟨n, by simp [fpsNumber, getProp_of_not_nullish status _ hs, hn, bind, Except.bind]⟩

theorem scoreText_ok (h : Host) (status : JSVal) (hs : isNullish status = false)
    (hp : status.plain = true) : ∃ s, scoreText h status = .ok s := by
  obtain ⟨s, hs2⟩ := fmtNumber_ok_of_plain h (getPropOpt status "score") 2 (by omega)
    (plain_getPropOpt _ _ hp)
  refine ⟨s, ?_⟩
  simp only [Nat.cast_ofNat] at hs2
  simp [scoreText, getProp_of_not_nullish status _ hs, hs2, bind, Except.bind]

theorem getPropOpt_nullish (v : JSVal) (key : String) (hv : isNullish v = true) :
    getPropOpt v key = .undefined := by
  cases v <;> simp_all [getPropOpt, isNullish]

theorem jointText_ok (h : Host) (status : JSVal) (key : String)
    (hs : isNullish status = false) (hp : status.plain = true) :
    ∃ s, jointText h status key = .ok s := by
  simp only [jointText, getProp_of_not_nullish status _ hs, bind, Except.bind, pure, Except.pure]
  split
  · rename_i hk
    have hj : isNullish (getPropOpt status "joints") = false := by
      cases hj : isNullish (getPropOpt status "joints")
      · rfl
      · rw [getPropOpt_nullish _ key hj] at hk
        simp [isNullish] at hk
    rw [getProp_of_not_nullish _ _ hj]
    obtain ⟨s, hs2⟩ := fmtNumber_ok_of_plain h
      (getPropOpt (getPropOpt status "joints") key) 1 (by omega)
      (plain_getPropOpt _ _ (plain_getPropOpt _ _ hp))
    simp only [Nat.cast_one] at hs2
    simp [hs2]
  · exact ⟨_, rfl⟩

theorem pixelText_ok (h : Host) (status : JSVal)
    (hs : isNullish status = false) (hp : status.plain = true) :
    ∃ s, pixelText h status = .ok s := by
  simp only [pixelText, getProp_of_not_nullish status _ hs, bind, Except.bind, pure, Except.pure]
  split
  · rename_i hk
    rw [getProp_of_not_nullish _ _ (not_nullish_of_toBoolean _ hk)]
    obtain ⟨u, hu⟩ := fmtNumber_ok_of_plain h
      (getPropOpt (getPropOpt status "pixel") "u") 1 (by omega)
      (plain_getPropOpt _ _ (plain_getPropOpt _ _ hp))
    obtain ⟨v, hv⟩ := fmtNumber_ok_of_plain h
      (getPropOpt (getPropOpt status "pixel") "v") 1 (by omega)
      (plain_getPropOpt _ _ (plain_getPropOpt _ _ hp))
    simp only [Nat.cast_one] at hu hv
    rw [getProp_of_not_nullish _ _ (not_nullish_of_toBoolean _ hk)]
    simp [hu, hv]
  · exact ⟨_, rfl⟩

theorem groundText_ok (h : Host) (status : JSVal)
    (hs : isNullish status = false) (hp : status.plain = true) :
    ∃ s, groundText h status = .ok s := by
  simp only [groundText, getProp_of_not_nullish status _ hs, bind, Except.bind, pure, Except.pure]
  split
  · rename_i hk
    have hn := not_nullish_of_toBoolean _ hk
    have hpt := plain_getPropOpt status "target" hp
    obtain ⟨x0, hx0⟩ := getIndex_ok_of_not_nullish (getPropOpt status "target") 0 hn
    obtain ⟨x1, hx1⟩ := getIndex_ok_of_not_nullish (getPropOpt status "target") 1 hn
    obtain ⟨x2, hx2⟩ := getIndex_ok_of_not_nullish (getPropOpt status "target") 2 hn
    obtain ⟨s0, hs0⟩ := fmtNumber_ok_of_plain h x0 2 (by omega) (plain_getIndex _ _ _ hpt hx0)
    obtain ⟨s1, hs1⟩ := fmtNumber_ok_of_plain h x1 2 (by omega) (plain_getIndex _ _ _ hpt hx1)
    obtain ⟨s2, hs2⟩ := fmtNumber_ok_of_plain h x2 2 (by omega) (plain_getIndex _ _ _ hpt hx2)
    simp only [Nat.cast_ofNat] at hs0 hs1 hs2
    simp [hx0, hx1, hx2, hs0, hs1, hs2]
  · exact ⟨_, rfl⟩

theorem scoreVariant_ok (h : Host) (status : JSVal)
    (hs : isNullish status = false) (hp : status.plain = true) :
    ∃ s, scoreVariant h status = .ok s := by
  obtain ⟨n, hn⟩ := toNumber_ok_of_plain h
    (jsCoalesce (getPropOpt status "score") (.num (.fin 0)))
    (plain_jsCoalesce _ _ (plain_getPropOpt _ _ hp) rfl)
  refine ⟨if n.isNaN then "" else if n.ge scoreThresholds.good then "success"
    else if n.le scoreThresholds.bad then "danger" else "", ?_⟩
  simp [scoreVariant, getProp_of_not_nullish status _ hs, hn, bind, Except.bind,
    classByVariant_num]

theorem statItems_of_parts (h : Host) (status : JSVal) (fps : JSNum)
    (score pan tilt pixel ground fpsValue fpsVariant sVariant : String)
    (h1 : fpsNumber h status = .ok fps) (h2 : scoreText h status = .ok score)
    (h3 : jointText h status "pan" = .ok pan) (h4 : jointText h status "tilt" = .ok tilt)
    (h5 : pixelText h status = .ok pixel) (h6 : groundText h status = .ok ground)
    (h7 : toFixed h fps (.num (.fin 1)) = .ok fpsValue)
    (h8 : classByVariant h (.num fps) fpsThresholds = .ok fpsVariant)
    (h9 : scoreVariant h status = .ok sVariant) :
    statItems h status = .ok [
      ⟨"FPS", fpsValue, fpsVariant⟩, ⟨"Last Score", score, sVariant⟩, ⟨"Pan", pan, ""⟩,
      ⟨"Tilt", tilt, ""⟩, ⟨"Pixel", pixel, ""⟩, ⟨"Ground XYZ", ground, ""⟩] := by
  simp [statItems, h1, h2, h3, h4, h5, h6, h7, h8, h9, bind, Except.bind, pure, Except.pure]

theorem statItems_ok_of_plain (h : Host) (status : JSVal)
    (hs : isNullish status = false) (hp : status.plain = true) :
    ∃ fps score pan tilt pixel ground fpsValue fpsVariant sVariant,
      fpsNumber h status = .ok fps ∧ scoreText h status = .ok score ∧
      jointText h status "pan" = .ok pan ∧ jointText h status "tilt" = .ok tilt ∧
      pixelText h status = .ok pixel ∧ groundText h status = .ok ground ∧
      toFixed h fps (.num (.fin 1)) = .ok fpsValue ∧
      classByVariant h (.num fps) fpsThresholds = .ok fpsVariant ∧
      scoreVariant h status = .ok sVariant ∧
      statItems h status = .ok [
        ⟨"FPS", fpsValue, fpsVariant⟩, ⟨"Last Score", score, sVariant⟩, ⟨"Pan", pan, ""⟩,
        ⟨"Tilt", tilt, ""⟩, ⟨"Pixel", pixel, ""⟩, ⟨"Ground XYZ", ground, ""⟩] := by
  obtain ⟨fps, h1⟩ := fpsNumber_ok h status hs hp
  obtain ⟨score, h2⟩ := scoreText_ok h status hs hp
  obtain ⟨pan, h3⟩ := jointText_ok h status "pan" hs hp
  obtain ⟨tilt, h4⟩ := jointText_ok h status "tilt" hs hp
  obtain ⟨pixel, h5⟩ := pixelText_ok h status hs hp
  obtain ⟨ground, h6⟩ := groundText_ok h status hs hp
  obtain ⟨fpsValue, h7⟩ := toFixed_ok h fps 1 (by omega)
  simp only [Nat.cast_one] at h7
  obtain ⟨sVariant, h9⟩ := scoreVariant_ok h status hs hp
  exact ⟨fps, score, pan, tilt, pixel, ground, fpsValue, _, sVariant, h1, h2, h3, h4, h5, h6,
    h7, classByVariant_num h fps _, h9,
    statItems_of_parts h status fps _ _ _ _ _ _ _ _ h1 h2 h3 h4 h5 h6 h7
      (classByVariant_num h fps _) h9⟩

theorem foldl_statCards (items : List StatItem) (w : World) :
    items.foldl (fun w item => { w with statsGrid := w.statsGrid ++ [statCard item] }) w =
      { w with statsGrid := w.statsGrid ++ items.map statCard } := by
  induction items generalizing w with
  | nil => simp
  | cons item rest ih => simp [List.foldl, ih]

theorem renderStats_of_items (h : Host) (status : JSVal) (w : World) (items : List StatItem)
    (hi : statItems h status = .ok items) :
    renderStats h status w = (.ok (), { w with statsGrid := items.map statCard }) := by
  simp [renderStats, hi, foldl_statCards]

theorem renderStats_of_error (h : Host) (status : JSVal) (w : World) (e : JSError)
    (hi : statItems h status = .error e) :
    renderStats h status w = (.error e, { w with statsGrid := [] }) := by
  simp [renderStats, hi]

/-! ## The literals and the order on finite Numbers -/

theorem lit_0_75_eq : lit_0_75 = 3 / 4 := by
  norm_num [lit_0_75, Rat.mkRat_eq_div]

theorem lit_0_4_eq : lit_0_4 = 3602879701896397 / 9007199254740992 := by
  norm_num [lit_0_4, Rat.mkRat_eq_div]

theorem JSNum.ge_fin (a b : ℚ) : (JSNum.fin a).ge (.fin b) = true ↔ b ≤ a := by
  simp [JSNum.ge, JSNum.lt, JSNum.isNaN]

theorem JSNum.le_fin (a b : ℚ) : (JSNum.fin a).le (.fin b) = true ↔ a ≤ b := by
  simp [JSNum.le, JSNum.lt, JSNum.isNaN]

theorem JSNum.lt_fin (a b : ℚ) : (JSNum.fin a).lt (.fin b) = true ↔ a < b := by
  simp [JSNum.lt]

/-! ## The threshold classifier -/

/-- C1: for Numbers `v`, `g`, `b` with `g` not NaN (and `g`, `b` in any
order), `classByVariant(v, {good: g, bad: b})` is `success` exactly when
`v >= g`, `danger` exactly when `v <= b` and `v < g`, and the empty class
otherwise; it is `success` at `v == g`, `danger` at `v == b` when `b < g`,
and the empty class for `null`, `undefined` and `NaN`. -/
theorem classByVariant_thresholds (h : Host) (v g b : JSNum) (hg : g ≠ .nan) :
    (classByVariant h (.num v) ⟨g, b⟩ = .ok "success" ↔ v.ge g = true) ∧
    (classByVariant h (.num v) ⟨g, b⟩ = .ok "danger" ↔ (v.le b = true ∧ v.lt g = true)) ∧
    (classByVariant h (.num v) ⟨g, b⟩ = .ok "" ↔
      (¬ v.ge g = true ∧ ¬ (v.le b = true ∧ v.lt g = true))) ∧
    classByVariant h (.num g) ⟨g, b⟩ = .ok "success" ∧
    (b.lt g = true → classByVariant h (.num b) ⟨g, b⟩ = .ok "danger") ∧
    classByVariant h .null ⟨g, b⟩ = .ok "" ∧
    classByVariant h .undefined ⟨g, b⟩ = .ok "" ∧
    classByVariant h (.num .nan) ⟨g, b⟩ = .ok "" := by
  refine ⟨?_, ?_, ?_, ?_, ?_, rfl, rfl, rfl⟩
  · cases v <;> cases g <;> cases b <;>
      simp [classByVariant, JSNum.ge, JSNum.le, JSNum.lt, JSNum.isNaN, toNumber, isNullish]
        at hg ⊢ <;>
      (try split_ifs) <;> (try simp_all)
  · cases v <;> cases g <;> cases b <;>
      simp [classByVariant, JSNum.ge, JSNum.le, JSNum.lt, JSNum.isNaN, toNumber, isNullish]
        at hg ⊢ <;>
      (try split_ifs) <;> (try simp_all)
  · cases v <;> cases g <;> cases b <;>
      simp [classByVariant, JSNum.ge, JSNum.le, JSNum.lt, JSNum.isNaN, toNumber, isNullish]
        at hg ⊢ <;>
      (try split_ifs) <;> (try simp_all)
  · cases g <;> cases b <;>
      simp [classByVariant, JSNum.ge, JSNum.le, JSNum.lt, JSNum.isNaN, toNumber, isNullish]
        at hg ⊢
  · cases g <;> cases b <;>
      simp [classByVariant, JSNum.ge, JSNum.le, JSNum.lt, JSNum.isNaN, toNumber, isNullish]
        at hg ⊢

/-- The classifier at the thresholds of the FPS card: 15 frames per second
is `success`. -/
theorem classByVariant_thresholds_witness :
    classByVariant utcHost (.num (.fin 15)) ⟨.fin 12, .fin 4⟩ = .ok "success" :=
  (classByVariant_thresholds utcHost (.fin 15) (.fin 12) (.fin 4) (by decide)).1.mpr (by decide)

/-! ## The Last Score card -/

/-- C2, refuted as stated: on a snapshot without a score the Last Score
card shows the dash and carries the class `danger`, not the neutral class. -/
theorem lastScore_absent_counterexample :
    (renderStats utcHost (.obj []) blankPage).2.statsGrid.get? 1 =
        some (.elem "div" ["stat-card"] [
          .elem "div" ["stat-label"] [.text "Last Score"],
          .elem "div" ["stat-value", "danger"] [.text "—"]]) ∧
      statCard ⟨"Last Score", "—", "danger"⟩ ≠ statCard ⟨"Last Score", "—", ""⟩ := by
  refine ⟨rfl, ?_⟩
  simp [statCard, classListAdd]

/-- C2 (amended): for every present snapshot whose values are plain,
`renderStats` completes and its second card is the Last Score card.  A score
that is a finite Number is shown by `toFixed(2)` and is `success` exactly when
`score >= 0.75`, `danger` exactly when `score <= 0.4`, neutral exactly in
between; an infinite score is shown as such and classified by the same
comparisons; a NaN score shows the dash and is neutral; an absent score
(`null` or `undefined`) shows the dash and is classified as the value 0, that
is `danger`. -/
theorem lastScore_card (h : Host) (status : JSVal) (w : World)
    (hs : isNullish status = false) (hp : status.plain = true) :
    ∃ value variant,
      (renderStats h status w).1 = .ok () ∧
      (renderStats h status w).2.statsGrid.get? 1 =
        some (statCard ⟨"Last Score", value, variant⟩) ∧
      (∀ s, getProp status "score" = .ok s → isNullish s = true →
        value = dash ∧ variant = "danger") ∧
      (getProp status "score" = .ok (.num .nan) → value = dash ∧ variant = "") ∧
      (getProp status "score" = .ok (.num .posInf) →
        value = "Infinity" ∧ variant = "success") ∧
      (getProp status "score" = .ok (.num .negInf) →
        value = "-Infinity" ∧ variant = "danger") ∧
      (∀ q : ℚ, getProp status "score" = .ok (.num (.fin q)) →
        toFixed h (.fin q) (.num (.fin 2)) = .ok value ∧
        (variant = "success" ↔ 3 / 4 ≤ q) ∧
        (variant = "danger" ↔ q ≤ lit_0_4) ∧
        (variant = "" ↔ lit_0_4 < q ∧ q < 3 / 4)) := by
  obtain ⟨fps, score, pan, tilt, pixel, ground, fpsValue, fpsVariant, sVariant,
    -, h2, -, -, -, -, -, -, h9, hitems⟩ := statItems_ok_of_plain h status hs hp
  have hget := getProp_of_not_nullish status "score" hs
  simp only [scoreText, hget, bind, Except.bind] at h2
  simp only [scoreVariant, hget, bind, Except.bind] at h9
  have h04 : lit_0_4 < 3 / 4 := by rw [lit_0_4_eq]; norm_num
  have h04pos : (0 : ℚ) ≤ lit_0_4 := by rw [lit_0_4_eq]; norm_num
  refine ⟨score, sVariant, ?_, ?_, ?_, ?_, ?_, ?_, ?_⟩
  · rw [renderStats_of_items h status w _ hitems]
  · rw [renderStats_of_items h status w _ hitems]; rfl
  · intro s hsc hnull
    rw [hget, Except.ok.injEq] at hsc
    rw [hsc] at h2 h9
    rw [fmtNumber_nullish h s _ hnull] at h2
    simp only [jsCoalesce, hnull, if_true, toNumber, classByVariant_num, scoreThresholds,
      JSNum.isNaN, Except.ok.injEq] at h2 h9
    refine ⟨h2.symm, ?_⟩
    have hge : ¬ ((JSNum.fin 0).ge (.fin lit_0_75) = true) := by
      rw [JSNum.ge_fin, lit_0_75_eq]; norm_num
    have hle : (JSNum.fin 0).le (.fin lit_0_4) = true := by
      rw [JSNum.le_fin]; exact h04pos
    simp [hge, hle] at h9
    exact h9.symm
  · intro hsc
    rw [hget, Except.ok.injEq] at hsc
    rw [hsc] at h2 h9
    simp [fmtNumber, isNullish, toNumber, JSNum.isNaN, jsCoalesce, classByVariant_num] at h2 h9
    exact ⟨h2.symm, h9.symm⟩
  · intro hsc
    rw [hget, Except.ok.injEq] at hsc
    rw [hsc] at h2 h9
    have hfix := toFixed_not_fin h .posInf 2 (by omega) (by simp)
    simp only [Nat.cast_ofNat] at hfix
    simp [fmtNumber, isNullish, toNumber, JSNum.isNaN, jsCoalesce, classByVariant_num, hfix,
      numToStr, JSNum.ge, JSNum.lt, scoreThresholds] at h2 h9
    exact ⟨h2.symm, h9.symm⟩
  · intro hsc
    rw [hget, Except.ok.injEq] at hsc
    rw [hsc] at h2 h9
    have hfix := toFixed_not_fin h .negInf 2 (by omega) (by simp)
    simp only [Nat.cast_ofNat] at hfix
    simp [fmtNumber, isNullish, toNumber, JSNum.isNaN, jsCoalesce, classByVariant_num, hfix,
      numToStr, JSNum.ge, JSNum.le, JSNum.lt, scoreThresholds] at h2 h9
    exact ⟨h2.symm, h9.symm⟩
  · intro q hsc
    rw [hget, Except.ok.injEq] at hsc
    rw [hsc] at h2 h9
    simp only [fmtNumber, isNullish, toNumber, JSNum.isNaN, jsCoalesce, classByVariant_num,
      scoreThresholds, Bool.false_eq_true, if_false, Except.ok.injEq] at h2 h9
    refine ⟨h2, ?_⟩
    rw [← h9]
    by_cases hq1 : (3 : ℚ) / 4 ≤ q
    · have : (JSNum.fin q).ge (.fin lit_0_75) = true := by
        rw [JSNum.ge_fin, lit_0_75_eq]; exact hq1
      have hq2 : ¬ q ≤ lit_0_4 := by intro hc; linarith
      simp [this, hq1, hq2]
    · have : ¬ ((JSNum.fin q).ge (.fin lit_0_75) = true) := by
        rw [JSNum.ge_fin, lit_0_75_eq]; exact hq1
      by_cases hq2 : q ≤ lit_0_4
      · have hle : (JSNum.fin q).le (.fin lit_0_4) = true := by rw [JSNum.le_fin]; exact hq2
        simp [this, hle, hq1, hq2]
      · have hle : ¬ ((JSNum.fin q).le (.fin lit_0_4) = true) := by rw [JSNum.le_fin]; exact hq2
        simp [this, hle, hq1, hq2]
        exact ⟨lt_of_not_le hq2, lt_of_not_le hq1⟩

/-- A snapshot with the score one fifth: the card shows `0.20` in `danger`. -/
theorem lastScore_card_witness :
    ∃ value variant,
      (renderStats utcHost (.obj [("score", .num (.fin (mkRat 1 5)))]) blankPage).1 = .ok () ∧
      (renderStats utcHost (.obj [("score", .num (.fin (mkRat 1 5)))]) blankPage).2.statsGrid.get? 1
        = some (statCard ⟨"Last Score", value, variant⟩) ∧
      (toFixed utcHost (.fin (mkRat 1 5)) (.num (.fin 2)) = .ok value ∧
        (variant = "danger" ↔ mkRat 1 5 ≤ lit_0_4)) := by
  obtain ⟨value, variant, h1, h2, -, -, -, -, h7⟩ :=
    lastScore_card utcHost (.obj [("score", .num (.fin (mkRat 1 5)))]) blankPage
      (by decide) (by decide)
  exact ⟨value, variant, h1, h2, (h7 _ rfl).1, (h7 _ rfl).2.2.1⟩

/-! ## `renderStats` on an absent status -/

/-- C3, refuted as stated: `renderStats(null)` throws a TypeError. -/
theorem renderStats_null_counterexample :
    (renderStats utcHost .null blankPage).1 = .error .typeError ∧
      (renderStats utcHost .null blankPage).1 ≠ (renderStats utcHost (.obj []) blankPage).1 := by
  constructor
  · rfl
  · decide

/-- C3 (amended): on a present snapshot in which every field the renderer
reads is missing, `renderStats` completes and leaves the six cards FPS `0.0`
and the dash for Last Score, Pan, Tilt, Pixel and Ground XYZ; on an absent
status (`null` or `undefined`) it throws a TypeError at the first field read,
after it has emptied the grid. -/
theorem renderStats_all_missing (h : Host) (status : JSVal) (w : World)
    (hmissing : ∀ key ∈ ["fps", "score", "joints", "pixel", "target"],
      getProp status key = .ok .undefined) :
    renderStats h status w = (.ok (), { w with statsGrid := [
        statCard ⟨"FPS", "0.0", "danger"⟩, statCard ⟨"Last Score", dash, "danger"⟩,
        statCard ⟨"Pan", dash, ""⟩, statCard ⟨"Tilt", dash, ""⟩,
        statCard ⟨"Pixel", dash, ""⟩, statCard ⟨"Ground XYZ", dash, ""⟩] }) ∧
    renderStats h .null w = (.error .typeError, { w with statsGrid := [] }) ∧
    renderStats h .undefined w = (.error .typeError, { w with statsGrid := [] }) := by
  refine ⟨?_, rfl, rfl⟩
  have h1 := hmissing "fps" (by simp)
  have h2 := hmissing "score" (by simp)
  have h3 := hmissing "joints" (by simp)
  have h4 := hmissing "pixel" (by simp)
  have h5 := hmissing "target" (by simp)
  have hitems : statItems h status = .ok [
      ⟨"FPS", "0.0", "danger"⟩, ⟨"Last Score", dash, "danger"⟩, ⟨"Pan", dash, ""⟩,
      ⟨"Tilt", dash, ""⟩, ⟨"Pixel", dash, ""⟩, ⟨"Ground XYZ", dash, ""⟩] := by
    apply statItems_of_parts h status (.fin 0)
    · simp only [fpsNumber, h1, bind, Except.bind]; rfl
    · simp only [scoreText, h2, bind, Except.bind]; rfl
    · simp only [jointText, h3, bind, Except.bind]; rfl
    · simp only [jointText, h3, bind, Except.bind]; rfl
    · simp only [pixelText, h4, bind, Except.bind]; rfl
    · simp only [groundText, h5, bind, Except.bind]; rfl
    · rfl
    · rfl
    · simp only [scoreVariant, h2, bind, Except.bind]; rfl
  rw [renderStats_of_items h status w _ hitems]
  rfl

/-- The empty object is a snapshot in which every field is missing. -/
theorem renderStats_all_missing_witness :
    (renderStats utcHost (.obj []) blankPage).2.statsGrid = [
        statCard ⟨"FPS", "0.0", "danger"⟩, statCard ⟨"Last Score", dash, "danger"⟩,
        statCard ⟨"Pan", dash, ""⟩, statCard ⟨"Tilt", dash, ""⟩,
        statCard ⟨"Pixel", dash, ""⟩, statCard ⟨"Ground XYZ", dash, ""⟩] := by
  rw [(renderStats_all_missing utcHost (.obj []) blankPage (by
    intro key _; rfl)).1]

/-! ## The refresh cycle -/

theorem renderStats_frame (h : Host) (status : JSVal) (w : World) :
    (renderStats h status w).2 =
      { w with statsGrid := (renderStats h status w).2.statsGrid } := by
  unfold renderStats
  cases statItems h status <;> simp [foldl_statCards]

theorem showConnection_frame (h : Host) (status : JSVal) (w : World) :
    (showConnection h status w).2.statsGrid = w.statsGrid ∧
    (showConnection h status w).2.eventsList = w.eventsList ∧
    (showConnection h status w).2.console = w.console ∧
    (showConnection h status w).2.requests = w.requests := by
  unfold showConnection
  repeat' split
  all_goals exact ⟨rfl, rfl, rfl, rfl⟩

theorem renderEventsLoop_eq (h : Host) (events : List JSVal) (w : World) :
    renderEventsLoop h events w =
      ((renderEventsLoop h events blankPage).1,
        { w with eventsList :=
          w.eventsList ++ (renderEventsLoop h events blankPage).2.eventsList }) := by
  induction events generalizing w with
  | nil => simp [renderEventsLoop, blankPage]
  | cons event rest ih =>
    simp only [renderEventsLoop]
    cases eventCard h event with
    | error e => simp [blankPage]
    | ok card =>
      simp only
      rw [ih { w with eventsList := w.eventsList ++ [card] },
        ih { blankPage with eventsList := blankPage.eventsList ++ [card] }]
      simp [blankPage]

theorem renderEvents_eq (h : Host) (events : JSVal) (w : World) :
    renderEvents h events w =
      ((renderEvents h events blankPage).1,
        { w with eventsList := (renderEvents h events blankPage).2.eventsList }) := by
  unfold renderEvents
  split
  · rename_i event rest
    rw [renderEventsLoop_eq h (event :: rest) { w with eventsList := [] },
      renderEventsLoop_eq h (event :: rest) { blankPage with eventsList := [] }]
  · simp [blankPage]

theorem statusBlock_frame (h : Host) (net : String → FetchResult) (w : World) :
    (statusBlock h net w).2.eventsList = w.eventsList ∧
    (statusBlock h net w).2.console = w.console ∧
    (statusBlock h net w).2.requests = w.requests ++ ["/api/status"] := by
  unfold statusBlock fetchJson
  cases net "/api/status" with
  | rejected => exact ⟨rfl, rfl, rfl⟩
  | unparsable => exact ⟨rfl, rfl, rfl⟩
  | json status =>
    simp only [andThen]
    have hf := renderStats_frame h status { w with requests := w.requests ++ ["/api/status"] }
    generalize renderStats h status { w with requests := w.requests ++ ["/api/status"] } = r at hf
    obtain ⟨c, w1⟩ := r
    cases c with
    | error e => simp only at hf ⊢; rw [hf]; exact ⟨rfl, rfl, rfl⟩
    | ok u =>
      simp only at hf ⊢
      obtain ⟨-, h2, h3, h4⟩ := showConnection_frame h status w1
      rw [h2, h3, h4, hf]
      exact ⟨rfl, rfl, rfl⟩

theorem tryCatch_consoleError (body : World → Step) (message : String) (w : World) :
    (tryCatch body (consoleError message) w).1 = .ok () ∧
    (tryCatch body (consoleError message) w).2.statsGrid = (body w).2.statsGrid ∧
    (tryCatch body (consoleError message) w).2.eventsList = (body w).2.eventsList ∧
    (tryCatch body (consoleError message) w).2.serialPill = (body w).2.serialPill ∧
    (tryCatch body (consoleError message) w).2.serialPillClass = (body w).2.serialPillClass ∧
    (tryCatch body (consoleError message) w).2.heartbeat = (body w).2.heartbeat ∧
    (tryCatch body (consoleError message) w).2.requests = (body w).2.requests := by
  unfold tryCatch consoleError
  generalize body w = r
  obtain ⟨c, w1⟩ := r
  cases c <;> simp

theorem refreshLoop_eq (h : Host) (net : String → FetchResult) (w : World) :
    refreshLoop h net w =
      tryCatch (eventsBlock h net) (consoleError "events poll failed")
        (tryCatch (statusBlock h net) (consoleError "status poll failed") w).2 := by
  have h1 := (tryCatch_consoleError (statusBlock h net) "status poll failed" w).1
  unfold refreshLoop andThen
  generalize tryCatch (statusBlock h net) (consoleError "status poll failed") w = r at h1
  obtain ⟨c, w1⟩ := r
  simp only at h1
  subst h1
  rfl

theorem eventsBlock_requests (h : Host) (net : String → FetchResult) (w : World) :
    (eventsBlock h net w).2.requests = w.requests ++ ["/api/events?limit=30"] := by
  unfold eventsBlock fetchJson
  cases net "/api/events?limit=30" with
  | rejected => rfl
  | unparsable => rfl
  | json body =>
    simp only
    cases getProp body "events" with
    | error e => rfl
    | ok list => simp only; rw [renderEvents_eq]

theorem eventsBlock_of_json (h : Host) (net : String → FetchResult) (w : World)
    (body list : JSVal) (hnet : net "/api/events?limit=30" = .json body)
    (hlist : getProp body "events" = .ok list) :
    eventsBlock h net w =
      renderEvents h (jsOr list (.arr [])) { w with requests := w.requests ++ ["/api/events?limit=30"] } := by
  simp [eventsBlock, fetchJson, hnet, hlist]

/-- C4: whatever the status fetch, the events fetch and both renderers do,
a refresh cycle completes normally; it sends the request for
`/api/events?limit=30` after the one for `/api/status`; and whenever the
events fetch yields a body with a readable `events` property, the feed it
leaves is the rendering of those events, independently of how the status
half of the cycle ended. -/
theorem refreshLoop_events_after_status (h : Host) (net : String → FetchResult) (w : World) :
    (refreshLoop h net w).1 = .ok () ∧
    (refreshLoop h net w).2.requests =
      w.requests ++ ["/api/status", "/api/events?limit=30"] ∧
    (∀ body list, net "/api/events?limit=30" = .json body →
      getProp body "events" = .ok list →
      (refreshLoop h net w).2.eventsList =
        (renderEvents h (jsOr list (.arr [])) blankPage).2.eventsList) := by
  rw [refreshLoop_eq]
  obtain ⟨-, -, -, -, -, -, hs7⟩ :=
    tryCatch_consoleError (statusBlock h net) "status poll failed" w
  obtain ⟨he1, -, he3, -, -, -, he7⟩ :=
    tryCatch_consoleError (eventsBlock h net) "events poll failed"
      (tryCatch (statusBlock h net) (consoleError "status poll failed") w).2
  refine ⟨he1, ?_, ?_⟩
  · rw [he7, eventsBlock_requests, hs7, (statusBlock_frame h net w).2.2]
    simp
  · intro body list hnet hlist
    rw [he3, eventsBlock_of_json h net _ body list hnet hlist, renderEvents_eq]

/-- With the status request rejected, the cycle still renders the fetched
event. -/
theorem refreshLoop_events_after_status_witness :
    (refreshLoop utcHost statusDownNet blankPage).2.eventsList = [
      .elem "div" ["event-card"] [
        .elem "div" ["title"] [.text "Target @ 11, 20"],
        .elem "span" ["badge", "success"] [.text "dispatched"],
        .elem "div" ["meta"] [.text "—"]]] :=
  ((refreshLoop_events_after_status utcHost statusDownNet blankPage).2.2
    (.obj [("events", .arr [targetEvent])]) (.arr [targetEvent]) rfl rfl).trans rfl

/-! ## Event cards -/

/-- C5: whenever the title and the meta line of an event can be derived, its
card is made and holds exactly one badge, between the title and the meta
line: `dispatched` with the class `success` when `serial_sent` is true (also
when `has_target` is true); otherwise `holding` with the class `warning`
when `has_target` is true; otherwise `idle` with the class `danger`. -/
theorem eventCard_badge (h : Host) (event : JSVal) (title meta : String)
    (ht : titleText h event = .ok title) (hm : metaText h event = .ok meta) :
    ∃ badge,
      eventCard h event = .ok (.elem "div" ["event-card"]
        [.elem "div" ["title"] (textNodes title), badge,
          .elem "div" ["meta"] (textNodes meta)]) ∧
      [Node.elem "div" ["title"] (textNodes title), badge,
          .elem "div" ["meta"] (textNodes meta)].filter
        (fun node => decide ("badge" ∈ node.classList)) = [badge] ∧
      (∀ sent, getProp event "serial_sent" = .ok sent → toBoolean sent = true →
        badge = .elem "span" ["badge", "success"] [.text "dispatched"]) ∧
      (∀ sent target, getProp event "serial_sent" = .ok sent →
        getProp event "has_target" = .ok target →
        toBoolean sent = false → toBoolean target = true →
        badge = .elem "span" ["badge", "warning"] [.text "holding"]) ∧
      (∀ sent target, getProp event "serial_sent" = .ok sent →
        getProp event "has_target" = .ok target →
        toBoolean sent = false → toBoolean target = false →
        badge = .elem "span" ["badge", "danger"] [.text "idle"]) := by
  have hn : isNullish event = false := by
    cases event <;> simp_all [titleText, getProp, isNullish, bind, Except.bind]
  have h1 := getProp_of_not_nullish event "serial_sent" hn
  have h2 := getProp_of_not_nullish event "has_target" hn
  by_cases hs : toBoolean (getPropOpt event "serial_sent") = true
  · refine ⟨.elem "span" ["badge", "success"] [.text "dispatched"], ?_, ?_, ?_, ?_, ?_⟩
    · simp [eventCard, ht, hm, badgeNode, h1, hs, bind, Except.bind, pure, Except.pure,
        classListAdd, textNodes]
    · simp [Node.classList]
    · intros; rfl
    · intro sent target hsent _ hf _
      rw [h1, Except.ok.injEq] at hsent
      rw [hsent] at hs
      rw [hs] at hf
      exact absurd hf (by decide)
    · intro sent target hsent _ hf _
      rw [h1, Except.ok.injEq] at hsent
      rw [hsent] at hs
      rw [hs] at hf
      exact absurd hf (by decide)
  · by_cases hg : toBoolean (getPropOpt event "has_target") = true
    · refine ⟨.elem "span" ["badge", "warning"] [.text "holding"], ?_, ?_, ?_, ?_, ?_⟩
      · simp [eventCard, ht, hm, badgeNode, h1, h2, hs, hg, bind, Except.bind, pure,
          Except.pure, classListAdd, textNodes]
      · simp [Node.classList]
      · intro sent hsent htrue
        rw [h1, Except.ok.injEq] at hsent
        rw [hsent] at hs
        exact absurd htrue hs
      · intros; rfl
      · intro sent target _ htarget _ hf
        rw [h2, Except.ok.injEq] at htarget
        rw [htarget] at hg
        rw [hg] at hf
        exact absurd hf (by decide)
    · refine ⟨.elem "span" ["badge", "danger"] [.text "idle"], ?_, ?_, ?_, ?_, ?_⟩
      · simp [eventCard, ht, hm, badgeNode, h1, h2, hs, hg, bind, Except.bind, pure,
          Except.pure, classListAdd, textNodes]
      · simp [Node.classList]
      · intro sent hsent htrue
        rw [h1, Except.ok.injEq] at hsent
        rw [hsent] at hs
        exact absurd htrue hs
      · intro sent target _ htarget _ htrue
        rw [h2, Except.ok.injEq] at htarget
        rw [htarget] at hg
        exact absurd htrue hg
      · intros; rfl

/-- The event with both flags set is `dispatched`, not `holding`. -/
theorem eventCard_badge_witness :
    eventCard utcHost targetEvent = .ok (.elem "div" ["event-card"]
      [.elem "div" ["title"] [.text "Target @ 11, 20"],
        .elem "span" ["badge", "success"] [.text "dispatched"],
        .elem "div" ["meta"] [.text "—"]]) := by
  obtain ⟨badge, h1, -, h3, -, -⟩ :=
    eventCard_badge utcHost targetEvent "Target @ 11, 20" "—" (by decide) (by decide)
  rw [h1, h3 (.bool true) rfl rfl]
  rfl

/-- C7: for an event whose message is not `target`, the title is `No target`
for `no_target`, `IK unavailable` for `ik_unavailable`, the message itself
for any other non-empty string, and `event` when the message is the empty
string or absent; and the derivation succeeds for every plain message
value. -/
theorem titleText_other (h : Host) (event message : JSVal)
    (hm : getProp event "message" = .ok message) (hne : message ≠ .str "target") :
    (message = .str "no_target" → titleText h event = .ok "No target") ∧
    (message = .str "ik_unavailable" → titleText h event = .ok "IK unavailable") ∧
    (∀ s, message = .str s → s ≠ "no_target" → s ≠ "ik_unavailable" → s ≠ "" →
      titleText h event = .ok s) ∧
    (message = .str "" → titleText h event = .ok "event") ∧
    (isNullish message = true → titleText h event = .ok "event") ∧
    (message.plain = true → ∃ title, titleText h event = .ok title) := by
  have hnt : strictEqStr message "target" = false := by
    cases message <;> simp_all [strictEqStr]
  refine ⟨?_, ?_, ?_, ?_, ?_, ?_⟩
  · intro h1
    subst h1
    simp [titleText, hm, strictEqStr, bind, Except.bind, pure, Except.pure]
  · intro h1
    subst h1
    simp [titleText, hm, strictEqStr, bind, Except.bind, pure, Except.pure]
  · intro s h1 h2 h3 h4
    subst h1
    have h5 : s ≠ "target" := fun hc => hne (by rw [hc])
    simp [titleText, hm, strictEqStr, bind, Except.bind, pure, Except.pure, h2, h3, h4, h5,
      jsOr, toBoolean, toStr]
  · intro h1
    subst h1
    simp [titleText, hm, strictEqStr, bind, Except.bind, pure, Except.pure, jsOr, toBoolean,
      toStr]
  · intro h1
    cases message <;>
      simp_all [titleText, strictEqStr, bind, Except.bind, pure, Except.pure, jsOr,
        toBoolean, toStr, isNullish]
  · intro hp
    obtain ⟨title, htitle⟩ := toStr_ok_of_plain h (jsOr message (.str "event"))
      (plain_jsOr message (.str "event") hp rfl)
    simp only [titleText, hm, hnt, bind, Except.bind, pure, Except.pure, Bool.false_eq_true,
      if_false, htitle]
    split
    · exact ⟨_, rfl⟩
    · split
      · exact ⟨_, rfl⟩
      · exact ⟨_, rfl⟩

/-- An event with an unknown tag keeps the tag as its title. -/
theorem titleText_other_witness :
    titleText utcHost (.obj [("message", .str "calibrating")]) = .ok "calibrating" :=
  (titleText_other utcHost (.obj [("message", .str "calibrating")]) (.str "calibrating")
    rfl (by simp)).2.2.1 "calibrating" rfl (by decide) (by decide) (by decide)

/-! ## The placeholder card -/

/-- C8: for an empty list and for every input that is not a list (`null`
and `undefined` included), `renderEvents` completes and leaves the feed
holding exactly one card, the `No events yet` placeholder, whatever the feed
held before; and no node of that card has the class `badge`. -/
theorem renderEvents_placeholder (h : Host) (events : JSVal) (w : World)
    (he : events = .arr [] ∨ ∀ items, events ≠ .arr items) :
    renderEvents h events w = (.ok (), { w with eventsList := [placeholderCard] }) ∧
    placeholderCard.hasClass "badge" = false ∧
    placeholderCard = .elem "div" ["event-card"] [
      .elem "div" ["title"] [.text "No events yet"],
      .elem "div" ["meta"] [.text "Waiting for detections…"]] := by
  refine ⟨?_, by decide, rfl⟩
  rcases he with he | he
  · subst he; rfl
  · cases events with
    | arr items => exact absurd rfl (he items)
    | _ => rfl

/-- An absent list on a feed that held a card. -/
theorem renderEvents_placeholder_witness :
    (renderEvents utcHost .undefined
      { blankPage with eventsList := [.text "stale"] }).2.eventsList = [placeholderCard] := by
  rw [(renderEvents_placeholder utcHost .undefined
    { blankPage with eventsList := [.text "stale"] }
    (Or.inr (fun items hc => by cases hc))).1]

/-! ## The numeric formatter -/

/-- C9: for every value that is `null` or `undefined`, or that `Number`
converts to NaN (NaN itself included), and for every `decimals` argument,
`fmtNumber` returns the dash and does not throw. -/
theorem fmtNumber_dash (h : Host) (value decimals : JSVal)
    (hv : isNullish value = true ∨ toNumber h value = .ok .nan) :
    fmtNumber h value decimals = .ok dash := by
  rcases hv with hv | hv
  · exact fmtNumber_nullish h value decimals hv
  · simp [fmtNumber, hv, JSNum.isNaN]

/-- A string that is not a numeric literal, with a precision `toFixed` would
reject. -/
theorem fmtNumber_dash_witness :
    fmtNumber utcHost (.str "n/a") (.num (.fin 1000)) = .ok "—" :=
  fmtNumber_dash utcHost (.str "n/a") (.num (.fin 1000)) (Or.inr (by decide))

/-! ## Rounding and digits -/

theorem abs_eq_natAbs_div_den (q : ℚ) : |q| = (q.num.natAbs : ℚ) / (q.den : ℚ) := by
  have h1 : (q.num.natAbs : ℚ) = |(q.num : ℚ)| := by
    rw [Nat.cast_natAbs, Int.cast_abs]
  have h2 : (0 : ℚ) < q.den := by exact_mod_cast q.den_pos
  rw [h1]
  conv_lhs => rw [← Rat.num_div_den q]
  rw [abs_div, abs_of_pos h2]

theorem roundScaled_eq_floor (q : ℚ) (f : ℕ) :
    roundScaled q f = ⌊|q| * 10 ^ f + 1 / 2⌋₊ := by
  have h2 : (0 : ℚ) < q.den := by exact_mod_cast q.den_pos
  have h3 : |q| * 10 ^ f + 1 / 2 =
      ((2 * q.num.natAbs * 10 ^ f + q.den : ℕ) : ℚ) / ((2 * q.den : ℕ) : ℚ) := by
    rw [abs_eq_natAbs_div_den]
    push_cast
    field_simp
    ring
  rw [h3, Nat.floor_div_eq_div]
  rfl

theorem roundScaled_eq_round (q : ℚ) (f : ℕ) :
    (roundScaled q f : ℤ) = round (|q| * 10 ^ f) := by
  have h0 : (0 : ℚ) ≤ |q| * 10 ^ f + 1 / 2 := by positivity
  rw [roundScaled_eq_floor, round_eq]
  exact Int.natCast_floor_eq_floor h0

theorem roundScaled_nearest (q : ℚ) (f : ℕ) (m : ℤ) :
    abs ((roundScaled q f : ℚ) / 10 ^ f - abs q) ≤ abs ((m : ℚ) / 10 ^ f - abs q) := by
  have hp : (0 : ℚ) < 10 ^ f := by positivity
  have h1 := round_le (|q| * 10 ^ f) m
  have h3 : ∀ z : ℚ, abs (z / 10 ^ f - abs q) = abs ((abs q * 10 ^ f) - z) / 10 ^ f := by
    intro z
    rw [abs_sub_comm, ← abs_of_pos hp, ← abs_div, abs_of_pos hp]
    congr 1
    field_simp
  have h4 : ((roundScaled q f : ℕ) : ℚ) = ((round (|q| * 10 ^ f) : ℤ) : ℚ) := by
    rw [← roundScaled_eq_round]; simp
  rw [h3, h3, h4]
  exact div_le_div_of_nonneg_right h1 hp.le

theorem digitChar_toNat (d : ℕ) (hd : d < 10) :
    (Nat.digitChar d).toNat = 48 + d ∧ (Nat.digitChar d).isDigit = true := by
  interval_cases d <;> decide

theorem digitsToNat_foldl (cs : List Char) (acc : ℕ) :
    cs.foldl (fun acc c => 10 * acc + (c.toNat - 48)) acc =
      acc * 10 ^ cs.length + digitsToNat cs := by
  induction cs generalizing acc with
  | nil => simp [digitsToNat]
  | cons c rest ih =>
    simp only [List.foldl_cons, List.length_cons, digitsToNat]
    rw [ih, ih (10 * 0 + (c.toNat - 48))]
    ring

theorem digitsToNat_append (a b : List Char) :
    digitsToNat (a ++ b) = digitsToNat a * 10 ^ b.length + digitsToNat b := by
  unfold digitsToNat
  rw [List.foldl_append, digitsToNat_foldl]
  rfl

theorem digitsToNat_singleton (d : ℕ) (hd : d < 10) : digitsToNat [Nat.digitChar d] = d := by
  simp [digitsToNat, (digitChar_toNat d hd).1]

theorem digitsToNat_replicate_zero (k : ℕ) : digitsToNat (List.replicate k '0') = 0 := by
  induction k with
  | zero => rfl
  | succ k ih =>
    have h0 : digitsToNat ['0'] = 0 := by decide
    rw [List.replicate_succ, ← List.singleton_append, digitsToNat_append, ih, h0]
    simp

theorem digitsToNat_lt (cs : List Char) (hcs : ∀ c ∈ cs, c.isDigit = true) :
    digitsToNat cs < 10 ^ cs.length := by
  induction cs using List.reverseRecOn with
  | nil => simp [digitsToNat]
  | append_singleton rest c ih =>
    have hc : c.isDigit = true := hcs c (by simp)
    have hr := ih (fun x hx => hcs x (by simp [hx]))
    rw [digitsToNat_append, List.length_append, List.length_singleton]
    have h1 : digitsToNat [c] < 10 := by
      simp only [digitsToNat, List.foldl_cons, List.foldl_nil]
      simp only [Char.isDigit, Bool.and_eq_true, decide_eq_true_eq] at hc
      have h2 : c.val.toNat ≤ 57 := by
        have := hc.2
        exact this
      have h3 : c.toNat = c.val.toNat := rfl
      omega
    have e2 : 10 ^ (rest.length + 1) = 10 ^ rest.length * 10 := pow_succ 10 rest.length
    rw [pow_one, e2]
    omega

theorem decimalDigitsAux_spec (fuel n : ℕ) (hn : n < fuel) :
    (∀ c ∈ decimalDigitsAux fuel n, c.isDigit = true) ∧
    digitsToNat (decimalDigitsAux fuel n) = n ∧ decimalDigitsAux fuel n ≠ [] := by
  induction fuel generalizing n with
  | zero => omega
  | succ fuel ih =>
    unfold decimalDigitsAux
    split
    · rename_i hlt
      refine ⟨?_, digitsToNat_singleton n hlt, by simp⟩
      intro c hc
      simp only [List.mem_singleton] at hc
      subst hc
      exact (digitChar_toNat n hlt).2
    · rename_i hge
      have hm : n % 10 < 10 := Nat.mod_lt _ (by omega)
      obtain ⟨h1, h2, -⟩ := ih (n / 10) (by omega)
      refine ⟨?_, ?_, by simp⟩
      · intro c hc
        simp only [List.mem_append, List.mem_singleton] at hc
        rcases hc with hc | hc
        · exact h1 c hc
        · subst hc; exact (digitChar_toNat _ hm).2
      · rw [digitsToNat_append, h2, digitsToNat_singleton _ hm]
        simp only [List.length_singleton, pow_one]
        omega

theorem decimalDigits_spec (n : ℕ) :
    (∀ c ∈ decimalDigits n, c.isDigit = true) ∧
    digitsToNat (decimalDigits n) = n ∧ decimalDigits n ≠ [] :=
  decimalDigitsAux_spec (n + 1) n (by omega)

theorem div_mod_of_digits (n a b P : ℕ) (hn : n = a * P + b) (hb : b < P) :
    a = n / P ∧ b = n % P := by
  have hP : 0 < P := by omega
  subst hn
  constructor
  · rw [Nat.add_comm, Nat.add_mul_div_right _ _ hP, Nat.div_eq_of_lt hb, Nat.zero_add]
  · rw [Nat.add_comm, Nat.add_mul_mod_self_right, Nat.mod_eq_of_lt hb]

theorem fixedDigits_spec (q : ℚ) (d : ℕ) :
    ∃ ip fp : List Char,
      fixedDigits q d = String.mk (ip ++ (if d = 0 then [] else '.' :: fp)) ∧
      fp.length = d ∧ ip ≠ [] ∧ (∀ c ∈ ip ++ fp, c.isDigit = true) ∧
      digitsToNat ip = roundScaled q d / 10 ^ d ∧
      digitsToNat fp = roundScaled q d % 10 ^ d := by
  obtain ⟨hdig, hval, hne⟩ := decimalDigits_spec (roundScaled q d)
  by_cases hd : d = 0
  · subst hd
    refine ⟨decimalDigits (roundScaled q 0), [], ?_, rfl, hne, ?_, ?_, ?_⟩
    · simp [fixedDigits]
    · simpa using hdig
    · simpa using hval
    · simp [digitsToNat, Nat.mod_one]
  · -- the digits of `n`, padded to at least `d + 1` characters
    obtain ⟨m, hm, hmdig, hmval, hmlen⟩ : ∃ m : List Char,
        m = (if (decimalDigits (roundScaled q d)).length ≤ d then
          List.replicate (d + 1 - (decimalDigits (roundScaled q d)).length) '0' ++
            decimalDigits (roundScaled q d)
          else decimalDigits (roundScaled q d)) ∧
        (∀ c ∈ m, c.isDigit = true) ∧ digitsToNat m = roundScaled q d ∧ d + 1 ≤ m.length := by
      refine ⟨_, rfl, ?_, ?_, ?_⟩
      · split
        · intro c hc
          simp only [List.mem_append, List.mem_replicate] at hc
          rcases hc with hc | hc
          · rw [hc.2]; decide
          · exact hdig c hc
        · exact hdig
      · split
        · rw [digitsToNat_append, digitsToNat_replicate_zero, hval]; simp
        · exact hval
      · split
        · rename_i hle
          simp only [List.length_append, List.length_replicate]
          omega
        · omega
    refine ⟨m.take (m.length - d), m.drop (m.length - d), ?_, ?_, ?_, ?_, ?_⟩
    · simp only [fixedDigits, hd, if_false, ← hm, List.append_assoc, List.singleton_append]
    · simp only [List.length_drop]; omega
    · intro hc
      have := congrArg List.length hc
      simp only [List.length_take, List.length_nil] at this
      omega
    · intro c hc
      rw [List.take_append_drop] at hc
      exact hmdig c hc
    · have hlen : (m.drop (m.length - d)).length = d := by
        simp only [List.length_drop]; omega
      have hsplit : digitsToNat m =
          digitsToNat (m.take (m.length - d)) * 10 ^ d + digitsToNat (m.drop (m.length - d)) := by
        conv_lhs => rw [← List.take_append_drop (m.length - d) m]
        rw [digitsToNat_append, hlen]
      have hlt : digitsToNat (m.drop (m.length - d)) < 10 ^ d := by
        have h1 := digitsToNat_lt (m.drop (m.length - d))
          (fun c hc => hmdig c (List.mem_of_mem_drop hc))
        rwa [hlen] at h1
      rw [hmval] at hsplit
      exact div_mod_of_digits _ _ _ _ hsplit hlt

/-! ## The title of a `target` event -/

theorem coordinateText_eq (h : Host) (x : ℚ) :
    coordinateText h x = (if x < 0 then "-" else "") ++
      (if (10 : ℚ) ^ 21 ≤ |x| then h.numberToString |x| else fixedDigits x 0) := by
  have hr : (round |x|).toNat = roundScaled x 0 := by
    have := roundScaled_eq_round x 0
    simp only [pow_zero, mul_one] at this
    rw [← this]
    simp
  unfold coordinateText
  by_cases hx : |x| < (10 : ℚ) ^ 21
  · have hx2 : ¬ (10 : ℚ) ^ 21 ≤ |x| := not_le.mpr hx
    simp only [hx, hx2, if_true, if_false, hr, fixedDigits]
  · have hx2 : (10 : ℚ) ^ 21 ≤ |x| := not_lt.mp hx
    simp only [hx, hx2, if_true, if_false]

/-- C6: for every event with the message `target` and a pixel whose `u` and
`v` are finite Numbers, the title is `Target @ U, V` where `U` and `V` are
the coordinates rounded to the nearest integer, halves away from zero (below
`10^21` in decimal digits, from there on as `Number::toString` writes the
integer); `u = 10.6`, `v = 20.4` give `11` and `20`; and an absent pixel gives
the dash for both coordinates. -/
theorem titleText_target (h : Host) (event pixel : JSVal)
    (hm : getProp event "message" = .ok (.str "target"))
    (hp : getProp event "pixel" = .ok pixel) :
    (∀ u v : ℚ, getProp pixel "u" = .ok (.num (.fin u)) →
      getProp pixel "v" = .ok (.num (.fin v)) →
      titleText h event =
        .ok ("Target @ " ++ coordinateText h u ++ ", " ++ coordinateText h v)) ∧
    (isNullish pixel = true → titleText h event = .ok "Target @ —, —") ∧
    coordinateText h lit_10_6 = "11" ∧ coordinateText h lit_20_4 = "20" ∧
    (∀ x : ℚ, abs (((round (abs x) : ℤ) : ℚ) - abs x) ≤ 1 / 2) := by
  refine ⟨?_, ?_, ?_, ?_, ?_⟩
  · intro u v hu hv
    have hn : isNullish pixel = false := by
      cases pixel <;> simp_all [getProp, isNullish]
    rw [getProp_of_not_nullish pixel _ hn, Except.ok.injEq] at hu hv
    have h0 : ((0 : ℕ) : ℚ) = 0 := Nat.cast_zero
    have hfu := toFixed_fin h u 0 (by omega)
    have hfv := toFixed_fin h v 0 (by omega)
    rw [h0] at hfu hfv
    simp only [titleText, hm, hp, strictEqStr, bind, Except.bind, pure, Except.pure, hu, hv,
      fmtNumber, isNullish, toNumber, JSNum.isNaN, hfu, hfv, coordinateText_eq]
    simp
  · intro hn
    simp [titleText, hm, hp, strictEqStr, bind, Except.bind, pure, Except.pure,
      getPropOpt_nullish pixel _ hn, fmtNumber, isNullish, dash]
  · have h1 : ¬ lit_10_6 < 0 := by decide
    have h2 : ¬ (10 : ℚ) ^ 21 ≤ |lit_10_6| := by decide
    have h3 : fixedDigits lit_10_6 0 = "11" := by decide
    rw [coordinateText_eq, if_neg h1, if_neg h2, h3]
    rfl
  · have h1 : ¬ lit_20_4 < 0 := by decide
    have h2 : ¬ (10 : ℚ) ^ 21 ≤ |lit_20_4| := by decide
    have h3 : fixedDigits lit_20_4 0 = "20" := by decide
    rw [coordinateText_eq, if_neg h1, if_neg h2, h3]
    rfl
  · intro x
    rw [abs_sub_comm]
    exact abs_sub_round |x|

/-- The event of the specification: `Target @ 11, 20`. -/
theorem titleText_target_witness :
    titleText utcHost targetEvent = .ok "Target @ 11, 20" := by
  have key := titleText_target utcHost targetEvent
    (.obj [("u", .num (.fin lit_10_6)), ("v", .num (.fin lit_20_4))]) rfl rfl
  rw [key.1 lit_10_6 lit_20_4 rfl rfl, key.2.2.1, key.2.2.2.1]
  rfl

/-! ## The precision of `fmtNumber` -/

set_option maxRecDepth 100000 in
/-- C10, refuted as stated: at the finite value `1e21` the result is
`1e+21` at the precision 2 and at the precision 0 alike, with no fractional
digits instead of two. -/
theorem fmtNumber_large_counterexample :
    fmtNumber utcHost (.num (.fin (10 ^ 21))) (.num (.fin 2)) = .ok "1e+21" ∧
      fmtNumber utcHost (.num (.fin (10 ^ 21))) (.num (.fin 0)) = .ok "1e+21" := by
  decide

/-- C10 (amended): for every finite value of magnitude below `10^21` and
every precision `d` from 0 to 100, `fmtNumber(value, d)` is the sign of the
value, the digits `ip` of an integer part and, when `d > 0`, a point and
exactly `d` digits `fp`, where `ip` and `fp` read as the quotient and the
remainder by `10^d` of the integer `n` for which `n / 10^d` is nearest to the
magnitude; from `10^21` on the result is the sign and what `Number::toString`
writes, whatever the precision; and the precision omitted is the precision
2. -/
theorem fmtNumber_fixed (h : Host) (q : ℚ) (d : ℕ) (hd : d ≤ 100) :
    (abs q < 10 ^ 21 →
      ∃ (n : ℕ) (ip fp : List Char),
        fmtNumber h (.num (.fin q)) (.num (.fin (d : ℚ))) =
          .ok ((if q < 0 then "-" else "") ++
            String.mk (ip ++ (if d = 0 then [] else '.' :: fp))) ∧
        (∀ m : ℤ, abs ((n : ℚ) / 10 ^ d - abs q) ≤ abs ((m : ℚ) / 10 ^ d - abs q)) ∧
        fp.length = d ∧ ip ≠ [] ∧ (∀ c ∈ ip ++ fp, c.isDigit = true) ∧
        digitsToNat ip = n / 10 ^ d ∧ digitsToNat fp = n % 10 ^ d) ∧
    ((10 : ℚ) ^ 21 ≤ abs q →
      fmtNumber h (.num (.fin q)) (.num (.fin (d : ℚ))) =
        .ok ((if q < 0 then "-" else "") ++ h.numberToString (abs q))) ∧
    fmtNumber h (.num (.fin q)) = fmtNumber h (.num (.fin q)) (.num (.fin 2)) := by
  have hfmt : fmtNumber h (.num (.fin q)) (.num (.fin (d : ℚ))) =
      toFixed h (.fin q) (.num (.fin (d : ℚ))) := by
    rw [fmtNumber_of_toNumber h (.num (.fin q)) (.num (.fin (d : ℚ))) (.fin q) (by simp)
      rfl rfl]
    rfl
  refine ⟨?_, ?_, rfl⟩
  · intro hq
    obtain ⟨ip, fp, h1, h2, h3, h4, h5, h6⟩ := fixedDigits_spec q d
    refine ⟨roundScaled q d, ip, fp, ?_, roundScaled_nearest q d, h2, h3, h4, h5, h6⟩
    rw [hfmt, toFixed_fin h q d hd, if_neg (not_le.mpr hq), h1]
  · intro hq
    rw [hfmt, toFixed_fin h q d hd, if_pos hq]

/-- The value `-3.14159` at the precision 3 rounds to `-3.142`. -/
theorem fmtNumber_fixed_witness :
    ∃ (n : ℕ) (ip fp : List Char),
      fmtNumber utcHost (.num (.fin (mkRat (-314159) 100000))) (.num (.fin ((3 : ℕ) : ℚ))) =
        .ok ((if mkRat (-314159) 100000 < 0 then "-" else "") ++
          String.mk (ip ++ (if 3 = 0 then [] else '.' :: fp))) ∧
      fp.length = 3 ∧ digitsToNat ip = n / 10 ^ 3 ∧ digitsToNat fp = n % 10 ^ 3 ∧
      fmtNumber utcHost (.num (.fin (mkRat (-314159) 100000))) (.num (.fin 3)) =
        .ok "-3.142" := by
  obtain ⟨n, ip, fp, h1, -, h3, -, -, h6, h7⟩ :=
    (fmtNumber_fixed utcHost (mkRat (-314159) 100000) 3 (by decide)).1
      (by rw [Rat.mkRat_eq_div]; norm_num [abs_lt])
  exact ⟨n, ip, fp, h1, h3, h6, h7, by decide⟩

/-! ## The FPS card -/

/-- C11: for every present snapshot whose values are plain, `renderStats`
completes and its first card is the FPS card.  An `fps` that is a finite
Number is shown by `toFixed(1)` and is `success` exactly when `fps >= 12`,
`danger` exactly when `fps <= 4`, neutral exactly in between; an infinite
`fps` is shown as such and classified by the same comparisons; an absent
`fps` (`null` or `undefined`) is taken as 0, shown as `0.0` and classified
as 0. -/
theorem fps_card (h : Host) (status : JSVal) (w : World)
    (hs : isNullish status = false) (hp : status.plain = true) :
    ∃ value variant,
      (renderStats h status w).1 = .ok () ∧
      (renderStats h status w).2.statsGrid.get? 0 =
        some (statCard ⟨"FPS", value, variant⟩) ∧
      (∀ s, getProp status "fps" = .ok s → isNullish s = true →
        value = "0.0" ∧ variant = "danger") ∧
      (getProp status "fps" = .ok (.num .posInf) →
        value = "Infinity" ∧ variant = "success") ∧
      (getProp status "fps" = .ok (.num .negInf) →
        value = "-Infinity" ∧ variant = "danger") ∧
      (∀ q : ℚ, getProp status "fps" = .ok (.num (.fin q)) →
        toFixed h (.fin q) (.num (.fin 1)) = .ok value ∧
        (variant = "success" ↔ 12 ≤ q) ∧
        (variant = "danger" ↔ q ≤ 4) ∧
        (variant = "" ↔ 4 < q ∧ q < 12)) := by
  obtain ⟨fps, score, pan, tilt, pixel, ground, fpsValue, fpsVariant, sVariant,
    h1, -, -, -, -, -, h7, h8, -, hitems⟩ := statItems_ok_of_plain h status hs hp
  have hget := getProp_of_not_nullish status "fps" hs
  simp only [fpsNumber, hget, bind, Except.bind] at h1
  rw [classByVariant_num] at h8
  simp only [Except.ok.injEq, fpsThresholds] at h8
  have hzero : toFixed h (.fin 0) (.num (.fin 1)) = .ok "0.0" := by
    have := toFixed_fin h 0 1 (by omega)
    simp only [Nat.cast_one] at this
    rw [this]
    rfl
  refine ⟨fpsValue, fpsVariant, ?_, ?_, ?_, ?_, ?_, ?_⟩
  · rw [renderStats_of_items h status w _ hitems]
  · rw [renderStats_of_items h status w _ hitems]; rfl
  · intro s hsc hnull
    rw [hget, Except.ok.injEq] at hsc
    rw [hsc] at h1
    have hfalse : toBoolean s = false := by
      cases s <;> simp_all [isNullish, toBoolean]
    simp only [jsOr, hfalse, Bool.false_eq_true, if_false, toNumber, Except.ok.injEq] at h1
    subst h1
    rw [hzero, Except.ok.injEq] at h7
    refine ⟨h7.symm, ?_⟩
    rw [← h8]
    have hge : ¬ ((JSNum.fin 0).ge (.fin 12) = true) := by
      rw [JSNum.ge_fin]; norm_num
    have hle : (JSNum.fin 0).le (.fin 4) = true := by
      rw [JSNum.le_fin]; norm_num
    simp [JSNum.isNaN, hge, hle]
  · intro hsc
    rw [hget, Except.ok.injEq] at hsc
    rw [hsc] at h1
    simp only [jsOr, toBoolean, if_true, toNumber, Except.ok.injEq] at h1
    subst h1
    have hfix := toFixed_not_fin h .posInf 1 (by omega) (by simp)
    simp only [Nat.cast_one] at hfix
    rw [hfix, Except.ok.injEq] at h7
    refine ⟨h7.symm, ?_⟩
    rw [← h8]
    simp [JSNum.isNaN, JSNum.ge, JSNum.lt]
  · intro hsc
    rw [hget, Except.ok.injEq] at hsc
    rw [hsc] at h1
    simp only [jsOr, toBoolean, if_true, toNumber, Except.ok.injEq] at h1
    subst h1
    have hfix := toFixed_not_fin h .negInf 1 (by omega) (by simp)
    simp only [Nat.cast_one] at hfix
    rw [hfix, Except.ok.injEq] at h7
    refine ⟨h7.symm, ?_⟩
    rw [← h8]
    simp [JSNum.isNaN, JSNum.ge, JSNum.le, JSNum.lt]
  · intro q hsc
    rw [hget, Except.ok.injEq] at hsc
    rw [hsc] at h1
    have hfps : fps = .fin q := by
      by_cases hq : q = 0
      · subst hq
        simp [jsOr, toBoolean, toNumber] at h1
        exact h1.symm
      · simp [jsOr, toBoolean, hq, toNumber] at h1
        exact h1.symm
    subst hfps
    refine ⟨h7, ?_⟩
    rw [← h8]
    by_cases hq1 : (12 : ℚ) ≤ q
    · have hge : (JSNum.fin q).ge (.fin 12) = true := by rw [JSNum.ge_fin]; exact hq1
      have hq2 : ¬ q ≤ 4 := by intro hc; linarith
      simp [JSNum.isNaN, hge, hq1, hq2]
    · have hge : ¬ ((JSNum.fin q).ge (.fin 12) = true) := by rw [JSNum.ge_fin]; exact hq1
      by_cases hq2 : q ≤ 4
      · have hle : (JSNum.fin q).le (.fin 4) = true := by rw [JSNum.le_fin]; exact hq2
        simp [JSNum.isNaN, hge, hle, hq1, hq2]
      · have hle : ¬ ((JSNum.fin q).le (.fin 4) = true) := by rw [JSNum.le_fin]; exact hq2
        simp [JSNum.isNaN, hge, hle, hq1, hq2]
        exact ⟨lt_of_not_le hq2, lt_of_not_le hq1⟩

/-- The snapshot with `fps: 15`, `score: 0.2` and the flag false: the FPS
card shows `15.0` in `success`. -/
theorem fps_card_witness :
    (renderStats utcHost offlineStatus blankPage).2.statsGrid.get? 0 =
      some (statCard ⟨"FPS", "15.0", "success"⟩) := by
  obtain ⟨value, variant, -, h2, -, -, -, h6⟩ :=
    fps_card utcHost offlineStatus blankPage (by decide) (by decide)
  obtain ⟨h7, h8, -, -⟩ := h6 15 rfl
  have hv : value = "15.0" := by
    have : toFixed utcHost (.fin 15) (.num (.fin 1)) = .ok "15.0" := by decide
    rw [this, Except.ok.injEq] at h7
    exact h7.symm
  have hc : variant = "success" := h8.mpr (by norm_num)
  rw [h2, hv, hc]

/-! ## The status half of the cycle -/

theorem renderStats_eq (h : Host) (status : JSVal) (w : World) :
    renderStats h status w =
      ((renderStats h status blankPage).1,
        { w with statsGrid := (renderStats h status blankPage).2.statsGrid }) := by
  unfold renderStats
  cases statItems h status <;> simp [foldl_statCards, blankPage]

theorem eventsBlock_frame (h : Host) (net : String → FetchResult) (w : World) :
    (eventsBlock h net w).2.statsGrid = w.statsGrid ∧
    (eventsBlock h net w).2.serialPill = w.serialPill ∧
    (eventsBlock h net w).2.serialPillClass = w.serialPillClass ∧
    (eventsBlock h net w).2.heartbeat = w.heartbeat := by
  unfold eventsBlock fetchJson
  cases net "/api/events?limit=30" with
  | rejected => exact ⟨rfl, rfl, rfl, rfl⟩
  | unparsable => exact ⟨rfl, rfl, rfl, rfl⟩
  | json body =>
    simp only
    cases getProp body "events" with
    | error e => exact ⟨rfl, rfl, rfl, rfl⟩
    | ok list => simp only; rw [renderEvents_eq]; exact ⟨rfl, rfl, rfl, rfl⟩

theorem refreshLoop_status_fields (h : Host) (net : String → FetchResult) (w : World) :
    (refreshLoop h net w).2.statsGrid = (statusBlock h net w).2.statsGrid ∧
    (refreshLoop h net w).2.serialPill = (statusBlock h net w).2.serialPill ∧
    (refreshLoop h net w).2.serialPillClass = (statusBlock h net w).2.serialPillClass ∧
    (refreshLoop h net w).2.heartbeat = (statusBlock h net w).2.heartbeat := by
  rw [refreshLoop_eq]
  obtain ⟨-, s2, -, s4, s5, s6, -⟩ :=
    tryCatch_consoleError (statusBlock h net) "status poll failed" w
  obtain ⟨-, e2, -, e4, e5, e6, -⟩ :=
    tryCatch_consoleError (eventsBlock h net) "events poll failed"
      (tryCatch (statusBlock h net) (consoleError "status poll failed") w).2
  obtain ⟨f1, f2, f3, f4⟩ := eventsBlock_frame h net
    (tryCatch (statusBlock h net) (consoleError "status poll failed") w).2
  rw [e2, e4, e5, e6, f1, f2, f3, f4, s2, s4, s5, s6]
  exact ⟨rfl, rfl, rfl, rfl⟩

theorem statusBlock_of_failure (h : Host) (net : String → FetchResult) (w : World)
    (hfail : net "/api/status" = .rejected ∨ net "/api/status" = .unparsable) :
    (statusBlock h net w).2 = { w with requests := w.requests ++ ["/api/status"] } ∧
    ∃ e, (statusBlock h net w).1 = .error e := by
  unfold statusBlock fetchJson
  rcases hfail with hf | hf <;> rw [hf] <;> exact ⟨rfl, _, rfl⟩

theorem statusBlock_of_json (h : Host) (net : String → FetchResult) (w : World)
    (status : JSVal) (items : List StatItem) (hnet : net "/api/status" = .json status)
    (hitems : statItems h status = .ok items) :
    statusBlock h net w =
      showConnection h status
        { w with requests := w.requests ++ ["/api/status"], statsGrid := items.map statCard } := by
  unfold statusBlock fetchJson andThen
  rw [hnet]
  simp only
  rw [renderStats_of_items h status _ items hitems]

theorem pillText_ok (h : Host) (status connected : JSVal) (hs : isNullish status = false)
    (hp : status.plain = true) : ∃ text, pillText h status connected = .ok text := by
  obtain ⟨port, hport⟩ := toStr_ok_of_plain h
    (jsOr (getPropOpt status "serial_port") (.str "connected"))
    (plain_jsOr _ (.str "connected") (plain_getPropOpt _ _ hp) rfl)
  simp only [pillText, getProp_of_not_nullish status _ hs, bind, Except.bind, pure,
    Except.pure, hport]
  split
  · exact ⟨_, rfl⟩
  · exact ⟨_, rfl⟩

theorem showConnection_pill (h : Host) (status connected : JSVal) (text : String) (w : World)
    (hc : getProp status "serial_connected" = .ok connected)
    (ht : pillText h status connected = .ok text) :
    (showConnection h status w).2.serialPill = textNodes text ∧
    (showConnection h status w).2.serialPillClass =
      classListAdd ["status-pill"] (if toBoolean connected then "success" else "danger") := by
  unfold showConnection
  rw [hc]
  simp only [ht]
  repeat' split
  all_goals exact ⟨rfl, rfl⟩

theorem showConnection_heartbeat (h : Host) (status connected lastUpdate : JSVal)
    (text : String) (w : World)
    (hc : getProp status "serial_connected" = .ok connected)
    (ht : pillText h status connected = .ok text)
    (hl : getProp status "last_update" = .ok lastUpdate) :
    (toBoolean lastUpdate = false → (showConnection h status w).2.heartbeat = w.heartbeat) ∧
    (∀ seconds t, toBoolean lastUpdate = true → toNumber h lastUpdate = .ok seconds →
      timeValue seconds = some t →
      (showConnection h status w).2.heartbeat = textNodes (h.formatTime t)) ∧
    (∀ seconds, toBoolean lastUpdate = true → toNumber h lastUpdate = .ok seconds →
      timeValue seconds = none →
      (showConnection h status w).2.heartbeat = w.heartbeat ∧
      (showConnection h status w).1 = .error .rangeError) := by
  unfold showConnection
  rw [hc]
  simp only [ht, hl]
  refine ⟨?_, ?_, ?_⟩
  · intro hf
    simp [hf]
  · intro seconds t hb hn htv
    simp [hb, hn, htv, formatDate]
  · intro seconds hb hn htv
    simp [hb, hn, htv, formatDate]

/-! ## The time value of a timestamp -/

theorem binaryLogAux_spec (fuel n : ℕ) (h1 : 1 ≤ n) (hn : n ≤ fuel) :
    2 ^ binaryLogAux fuel n ≤ n ∧ n < 2 ^ (binaryLogAux fuel n + 1) := by
  induction fuel generalizing n with
  | zero => omega
  | succ fuel ih =>
    unfold binaryLogAux
    split
    · constructor
      · simp; omega
      · simp; omega
    · rename_i hge
      obtain ⟨ha, hb⟩ := ih (n / 2) (by omega) (by omega)
      constructor
      · rw [pow_succ]; omega
      · rw [pow_succ]; omega

theorem binaryLog_spec (n : ℕ) (h1 : 1 ≤ n) :
    2 ^ binaryLog n ≤ n ∧ n < 2 ^ (binaryLog n + 1) :=
  binaryLogAux_spec n n h1 (le_refl n)

theorem roundHalfEven_le (a b n : ℕ) (hb : 0 < b) (h : a ≤ n * b) :
    roundHalfEven a b ≤ n := by
  have hdm := Nat.div_add_mod a b
  have hmod := Nat.mod_lt a hb
  have hq : a / b ≤ n := Nat.div_le_of_le_mul (by rw [Nat.mul_comm]; exact h)
  have hstep : 0 < a % b → a / b + 1 ≤ n := by
    intro hr
    by_contra hc
    have hqn : a / b = n := by omega
    rw [hqn, Nat.mul_comm] at hdm
    omega
  unfold roundHalfEven
  split
  · exact hq
  · split
    · exact hstep (by omega)
    · split
      · exact hq
      · exact hstep (by omega)

theorem roundHalfEven_ge (a b n : ℕ) (hb : 0 < b) (h : n * b ≤ a) :
    n ≤ roundHalfEven a b := by
  have hq : n ≤ a / b := (Nat.le_div_iff_mul_le hb).mpr h
  unfold roundHalfEven
  split
  · exact hq
  · split
    · omega
    · split
      · exact hq
      · omega

theorem roundHalfEven_near (a b : ℕ) (hb : 0 < b) :
    2 * (roundHalfEven a b * b) ≤ 2 * a + b ∧ 2 * a ≤ 2 * (roundHalfEven a b * b) + b := by
  have hdm := Nat.div_add_mod a b
  have hmod := Nat.mod_lt a hb
  have hcomm : a / b * b = b * (a / b) := Nat.mul_comm _ _
  unfold roundHalfEven
  split
  · constructor <;> omega
  · split
    · rw [Nat.add_mul, hcomm]; constructor <;> omega
    · split
      · constructor <;> omega
      · rw [Nat.add_mul, hcomm]; constructor <;> omega

theorem floorLog2_le (a b : ℕ) (ha : 1 ≤ a) (hb : 1 ≤ b) :
    b * 2 ^ (floorLog2 a b).toNat ≤ a * 2 ^ (-(floorLog2 a b)).toNat := by
  obtain ⟨ha1, -⟩ := binaryLog_spec a ha
  obtain ⟨-, hb2⟩ := binaryLog_spec b hb
  unfold floorLog2
  simp only
  split
  · assumption
  · by_cases hcase : binaryLog b + 1 ≤ binaryLog a
    · have e1 : ((binaryLog a : ℤ) - (binaryLog b : ℤ) - 1).toNat =
          binaryLog a - (binaryLog b + 1) := by omega
      have e2 : (-((binaryLog a : ℤ) - (binaryLog b : ℤ) - 1)).toNat = 0 := by omega
      rw [e1, e2, pow_zero, Nat.mul_one]
      calc b * 2 ^ (binaryLog a - (binaryLog b + 1))
          ≤ 2 ^ (binaryLog b + 1) * 2 ^ (binaryLog a - (binaryLog b + 1)) :=
            Nat.mul_le_mul_right _ hb2.le
        _ = 2 ^ binaryLog a := by rw [← pow_add]; congr 1; omega
        _ ≤ a := ha1
    · have e1 : ((binaryLog a : ℤ) - (binaryLog b : ℤ) - 1).toNat = 0 := by omega
      have e2 : (-((binaryLog a : ℤ) - (binaryLog b : ℤ) - 1)).toNat =
          binaryLog b + 1 - binaryLog a := by omega
      rw [e1, e2, pow_zero, Nat.mul_one]
      calc b ≤ 2 ^ (binaryLog b + 1) := hb2.le
        _ = 2 ^ binaryLog a * 2 ^ (binaryLog b + 1 - binaryLog a) := by
            rw [← pow_add]; congr 1; omega
        _ ≤ a * 2 ^ (binaryLog b + 1 - binaryLog a) := Nat.mul_le_mul_right _ ha1

theorem roundToDouble_of_le (a b c : ℕ) (ha : 1 ≤ a) (hb : 1 ≤ b) (hc : c < 2 ^ 53)
    (h : a ≤ c * b) :
    ∃ (m k : ℕ), roundToDouble a b = some (m, -(k : ℤ)) ∧ m ≤ c * 2 ^ k ∧
      2 * (m * b) ≤ 2 * (a * 2 ^ k) + b ∧ 2 * (a * 2 ^ k) ≤ 2 * (m * b) + b := by
  have hfl : floorLog2 a b ≤ 52 := by
    by_contra hcon
    have h53 : 53 ≤ (floorLog2 a b).toNat := by omega
    have hneg : (-(floorLog2 a b)).toNat = 0 := by omega
    have hle := floorLog2_le a b ha hb
    rw [hneg, pow_zero, Nat.mul_one] at hle
    have hpow : 2 ^ 53 ≤ 2 ^ (floorLog2 a b).toNat := Nat.pow_le_pow_right (by norm_num) h53
    have h1 : b * 2 ^ 53 ≤ a := le_trans (Nat.mul_le_mul_left b hpow) hle
    have h2 : c * b < 2 ^ 53 * b := Nat.mul_lt_mul_of_pos_right hc (by omega)
    have h3 : b * 2 ^ 53 = 2 ^ 53 * b := Nat.mul_comm _ _
    omega
  obtain ⟨k, hk⟩ : ∃ k : ℕ, max (floorLog2 a b) (-1022) - 52 = -(k : ℤ) :=
    ⟨(-(max (floorLog2 a b) (-1022) - 52)).toNat, by omega⟩
  have hpos : 0 < b * 2 ^ 0 := by simp; omega
  refine ⟨roundHalfEven (a * 2 ^ k) (b * 2 ^ 0), k, ?_, ?_, ?_⟩
  · unfold roundToDouble
    simp only [hk]
    have e1 : (-(k : ℤ)).toNat = 0 := by omega
    have e2 : (-(-(k : ℤ))).toNat = k := by omega
    rw [e1, e2]
    have hno : ¬ ((971 : ℤ) < -(k : ℤ) ∨
        (-(k : ℤ) = 971 ∧ 2 ^ 53 ≤ roundHalfEven (a * 2 ^ k) (b * 2 ^ 0))) := by omega
    rw [if_neg hno]
  · apply roundHalfEven_le _ _ _ hpos
    rw [pow_zero, Nat.mul_one]
    calc a * 2 ^ k ≤ c * b * 2 ^ k := Nat.mul_le_mul_right _ h
      _ = c * 2 ^ k * b := by ring
  · have := roundHalfEven_near (a * 2 ^ k) (b * 2 ^ 0) hpos
    simpa using this

theorem roundToDouble_of_ge (a b c : ℕ) (ha : 1 ≤ a) (hb : 1 ≤ b) (hc : c + 1 ≤ 2 ^ 53)
    (h : (c + 1) * b ≤ a) (m : ℕ) (e : ℤ) (hr : roundToDouble a b = some (m, e)) :
    ¬ m * 2 ^ e.toNat ≤ c * 2 ^ (-e).toNat := by
  unfold roundToDouble at hr
  simp only at hr
  split at hr
  · exact absurd hr (by simp)
  · simp only [Option.some.injEq, Prod.mk.injEq] at hr
    obtain ⟨hm, he⟩ := hr
    have hle := floorLog2_le a b ha hb
    by_cases hpos : 0 < e
    · -- a mantissa of at least `2^52` times a positive power of two
      have hfl : floorLog2 a b = e + 52 := by omega
      have e1 : (-e).toNat = 0 := by omega
      have e2 : (floorLog2 a b).toNat = e.toNat + 52 := by omega
      have e3 : (-(floorLog2 a b)).toNat = 0 := by omega
      rw [e2, e3, pow_zero, Nat.mul_one] at hle
      have hm52 : 2 ^ 52 ≤ m := by
        rw [← hm, he, e1, pow_zero, Nat.mul_one]
        apply roundHalfEven_ge _ _ _ (by positivity)
        calc 2 ^ 52 * (b * 2 ^ e.toNat) = b * 2 ^ (e.toNat + 52) := by ring
          _ ≤ a := hle
      rw [e1, pow_zero, Nat.mul_one]
      have h2 : 2 ≤ 2 ^ e.toNat := by
        calc 2 = 2 ^ 1 := rfl
          _ ≤ 2 ^ e.toNat := Nat.pow_le_pow_right (by norm_num) (by omega)
      have h3 : 2 ^ 52 * 2 ≤ m * 2 ^ e.toNat := Nat.mul_le_mul hm52 h2
      have h4 : (2 : ℕ) ^ 52 * 2 = 2 ^ 53 := by norm_num
      omega
    · have e1 : e.toNat = 0 := by omega
      rw [e1, pow_zero, Nat.mul_one]
      have hm2 : (c + 1) * 2 ^ (-e).toNat ≤ m := by
        rw [← hm, he, e1, pow_zero, Nat.mul_one]
        apply roundHalfEven_ge _ _ _ (by omega)
        calc (c + 1) * 2 ^ (-e).toNat * b = (c + 1) * b * 2 ^ (-e).toNat := by ring
          _ ≤ a * 2 ^ (-e).toNat := Nat.mul_le_mul_right _ h
      have hp : 0 < 2 ^ (-e).toNat := by positivity
      have h5 : (c + 1) * 2 ^ (-e).toNat = c * 2 ^ (-e).toNat + 2 ^ (-e).toNat := by ring
      omega

theorem timeValue_range_iff (q : ℚ) (c : ℕ) :
    q.num.natAbs * 1000 ≤ c * q.den ↔ |q| * 1000 ≤ (c : ℚ) := by
  have hden : (0 : ℚ) < q.den := by exact_mod_cast q.den_pos
  rw [abs_eq_natAbs_div_den, div_mul_eq_mul_div, div_le_iff₀ hden]
  constructor
  · intro hle
    exact_mod_cast hle
  · intro hle
    exact_mod_cast hle

theorem timeValue_of_range (q : ℚ) (hr : |q| * 1000 ≤ 8640000000000000) :
    ∃ t : ℤ, timeValue (.fin q) = some t ∧ abs ((t : ℚ) - q * 1000) < 3 / 2 := by
  by_cases hz : q.num = 0
  · refine ⟨0, by simp [timeValue, hz], ?_⟩
    have : q = 0 := Rat.num_eq_zero.mp hz
    subst this
    norm_num
  · have hden : 1 ≤ q.den := q.den_pos
    have hdenq : (0 : ℚ) < q.den := by exact_mod_cast q.den_pos
    have hnat : 1 ≤ q.num.natAbs := Nat.one_le_iff_ne_zero.mpr (Int.natAbs_ne_zero.mpr hz)
    have hle : q.num.natAbs * 1000 ≤ 8640000000000000 * q.den :=
      (timeValue_range_iff q 8640000000000000).mpr (by exact_mod_cast hr)
    obtain ⟨m, k, hround, hm, hn1, hn2⟩ :=
      roundToDouble_of_le (q.num.natAbs * 1000) q.den 8640000000000000 (by omega) hden
        (by norm_num) hle
    have e1 : (-(k : ℤ)).toNat = 0 := by omega
    have e2 : (-(-(k : ℤ))).toNat = k := by omega
    refine ⟨q.num.sign * ((m / 2 ^ k : ℕ) : ℤ), ?_, ?_⟩
    · simp only [timeValue, hz, if_false, hround, e1, e2, pow_zero, Nat.mul_one]
      rw [if_pos hm]
    · -- the truncated product `T`, the rounded product `m / 2^k`, the exact one `x`
      have hk : (0 : ℚ) < 2 ^ k := by positivity
      have hk1 : (1 : ℚ) ≤ 2 ^ k := one_le_pow₀ (by norm_num)
      have hx : |q| * 1000 = ((q.num.natAbs * 1000 : ℕ) : ℚ) / q.den := by
        rw [abs_eq_natAbs_div_den]; push_cast; ring
      have hT1 : ((m / 2 ^ k : ℕ) : ℚ) * 2 ^ k ≤ m := by
        have := Nat.div_mul_le_self m (2 ^ k)
        exact_mod_cast this
      have hT2 : (m : ℚ) < (((m / 2 ^ k : ℕ) : ℚ) + 1) * 2 ^ k := by
        have := Nat.lt_succ_iff.mpr (le_refl (m / 2 ^ k))
        have h2 : m < (m / 2 ^ k + 1) * 2 ^ k := by
          have := Nat.div_add_mod m (2 ^ k)
          have := Nat.mod_lt m (by positivity : 0 < 2 ^ k)
          rw [Nat.add_mul, Nat.mul_comm (m / 2 ^ k)]
          omega
        exact_mod_cast h2
      have hn1q : 2 * ((m : ℚ) * q.den) ≤ 2 * (|q| * 1000 * q.den * 2 ^ k) + q.den := by
        rw [hx, div_mul_cancel₀ _ hdenq.ne']
        exact_mod_cast hn1
      have hn2q : 2 * (|q| * 1000 * q.den * 2 ^ k) ≤ 2 * ((m : ℚ) * q.den) + q.den := by
        rw [hx, div_mul_cancel₀ _ hdenq.ne']
        exact_mod_cast hn2
      have hm1 : (m : ℚ) ≤ |q| * 1000 * 2 ^ k + 1 / 2 := by
        have : 2 * (m : ℚ) * q.den ≤ (2 * (|q| * 1000 * 2 ^ k) + 1) * q.den := by
          nlinarith
        have := le_of_mul_le_mul_right this hdenq
        linarith
      have hm2 : |q| * 1000 * 2 ^ k ≤ (m : ℚ) + 1 / 2 := by
        have : 2 * (|q| * 1000 * 2 ^ k) * q.den ≤ (2 * (m : ℚ) + 1) * q.den := by
          nlinarith
        have := le_of_mul_le_mul_right this hdenq
        linarith
      have hupper : ((m / 2 ^ k : ℕ) : ℚ) ≤ |q| * 1000 + 1 / 2 := by
        have : ((m / 2 ^ k : ℕ) : ℚ) * 2 ^ k ≤ (|q| * 1000 + 1 / 2) * 2 ^ k := by
          nlinarith
        exact le_of_mul_le_mul_right this hk
      have hlower : |q| * 1000 < ((m / 2 ^ k : ℕ) : ℚ) + 3 / 2 := by
        have : |q| * 1000 * 2 ^ k < (((m / 2 ^ k : ℕ) : ℚ) + 3 / 2) * 2 ^ k := by
          nlinarith
        exact lt_of_mul_lt_mul_right this hk.le
      have habs : abs (((m / 2 ^ k : ℕ) : ℚ) - |q| * 1000) < 3 / 2 := by
        rw [abs_lt]; constructor <;> linarith
      rcases lt_or_gt_of_ne (fun hq0 : q = 0 => hz (by rw [hq0]; rfl)) with hneg | hpos
      · have hs : q.num.sign = -1 := Int.sign_eq_neg_one_of_neg (Rat.num_neg.mpr hneg)
        rw [abs_of_neg hneg] at habs
        rw [hs]
        simp only [Int.cast_mul, Int.cast_neg, Int.cast_one, Int.cast_natCast]
        have : (-1 : ℚ) * ((m / 2 ^ k : ℕ) : ℚ) - q * 1000 =
            -(((m / 2 ^ k : ℕ) : ℚ) - -q * 1000) := by ring
        rw [this, abs_neg]
        exact habs
      · have hs : q.num.sign = 1 := Int.sign_eq_one_of_pos (Rat.num_pos.mpr hpos)
        rw [abs_of_pos hpos] at habs
        rw [hs]
        simp only [Int.cast_mul, Int.cast_one, Int.cast_natCast, one_mul]
        exact habs

theorem timeValue_of_beyond (q : ℚ) (hr : 8640000000000001 ≤ |q| * 1000) :
    timeValue (.fin q) = none := by
  have hz : q.num ≠ 0 := by
    intro hz
    have : q = 0 := Rat.num_eq_zero.mp hz
    subst this
    norm_num at hr
  have hden : 1 ≤ q.den := q.den_pos
  have hnat : 1 ≤ q.num.natAbs := Nat.one_le_iff_ne_zero.mpr (Int.natAbs_ne_zero.mpr hz)
  have hge : (8640000000000000 + 1) * q.den ≤ q.num.natAbs * 1000 := by
    have hlt : ¬ q.num.natAbs * 1000 ≤ 8640000000000000 * q.den := by
      intro hle
      have := (timeValue_range_iff q 8640000000000000).mp hle
      norm_num at this
      linarith
    have hden : (0 : ℚ) < q.den := by exact_mod_cast q.den_pos
    have h2 : ((8640000000000001 : ℕ) : ℚ) * q.den ≤ (q.num.natAbs * 1000 : ℕ) := by
      have hx : |q| * 1000 = ((q.num.natAbs * 1000 : ℕ) : ℚ) / q.den := by
        rw [abs_eq_natAbs_div_den]; push_cast; ring
      rw [hx, le_div_iff₀ hden] at hr
      exact_mod_cast hr
    exact_mod_cast h2
  simp only [timeValue, hz, if_false]
  cases hround : roundToDouble (q.num.natAbs * 1000) q.den with
  | none => rfl
  | some me =>
    obtain ⟨m, e⟩ := me
    have := roundToDouble_of_ge (q.num.natAbs * 1000) q.den 8640000000000000 (by omega) hden
      (by norm_num) hge m e hround
    simp only
    rw [if_neg this]

/-- The product is rounded before it is truncated: `-7763362976592.001 *
1000` is the double `-7763362976592001`, and `1700000000.29 * 1000` is the
double `1700000000290`, although the exact products truncate to
`-7763362976592000` and `1700000000289`. -/
theorem timeValue_rounds_product :
    timeValue (.fin lit_ancient) = some (-7763362976592001) ∧
      (lit_ancient.num * 1000).tdiv lit_ancient.den = -7763362976592000 ∧
      timeValue (.fin lit_fraction) = some 1700000000290 ∧
      (lit_fraction.num * 1000).tdiv lit_fraction.den = 1700000000289 := by
  decide

/-! ## The connection indicator -/

theorem serial_prefix_ne_empty (s : String) : "Serial: " ++ s ≠ "" := by
  intro hc
  have := congrArg String.length hc
  simp [String.length_append] at this
  have h8 : "Serial: ".length = 8 := by decide
  omega

/-- C12: for every fetched status that is present and plain, the pill the
cycle leaves is decided by `serial_connected`: when the flag is false it
shows `Serial: offline` with the classes `status-pill danger`, whatever
`serial_port` holds; when the flag is true it has the classes `status-pill
success` and shows `Serial: ` followed by `serial_port`, or by `connected`
when `serial_port` is absent or empty. -/
theorem connection_indicator (h : Host) (net : String → FetchResult) (w : World)
    (status connected : JSVal) (hnet : net "/api/status" = .json status)
    (hs : isNullish status = false) (hp : status.plain = true)
    (hc : getProp status "serial_connected" = .ok connected) :
    (toBoolean connected = false →
      (refreshLoop h net w).2.serialPill = [.text "Serial: offline"] ∧
      (refreshLoop h net w).2.serialPillClass = ["status-pill", "danger"]) ∧
    (toBoolean connected = true →
      (refreshLoop h net w).2.serialPillClass = ["status-pill", "success"] ∧
      ∀ port, getProp status "serial_port" = .ok port →
        (∀ s, port = .str s → s ≠ "" →
          (refreshLoop h net w).2.serialPill = [.text ("Serial: " ++ s)]) ∧
        (isNullish port = true ∨ port = .str "" →
          (refreshLoop h net w).2.serialPill = [.text "Serial: connected"])) := by
  obtain ⟨_, _, _, _, _, _, _, _, _, -, -, -, -, -, -, -, -, -, hitems⟩ :=
    statItems_ok_of_plain h status hs hp
  obtain ⟨-, f2, f3, -⟩ := refreshLoop_status_fields h net w
  rw [f2, f3, statusBlock_of_json h net w status _ hnet hitems]
  obtain ⟨text, ht⟩ := pillText_ok h status connected hs hp
  obtain ⟨p1, p2⟩ := showConnection_pill h status connected text
    { w with requests := w.requests ++ ["/api/status"], statsGrid := _ } hc ht
  rw [p1, p2]
  have hport := getProp_of_not_nullish status "serial_port" hs
  constructor
  · intro hf
    simp only [pillText, hf, Bool.false_eq_true, if_false, pure, Except.pure,
      Except.ok.injEq] at ht
    subst ht
    exact ⟨rfl, by simp [hf, classListAdd]⟩
  · intro htrue
    refine ⟨by simp [htrue, classListAdd], ?_⟩
    intro port hp2
    rw [hport, Except.ok.injEq] at hp2
    simp only [pillText, htrue, if_true, hport, bind, Except.bind, pure, Except.pure,
      hp2] at ht
    constructor
    · intro s hstr hne
      subst hstr
      simp only [jsOr, toBoolean, ne_eq, hne, not_false_eq_true, decide_True, if_true, toStr,
        Except.ok.injEq] at ht
      subst ht
      simp [textNodes, serial_prefix_ne_empty]
    · intro habsent
      have hfalse : toBoolean port = false := by
        rcases habsent with hn | hn
        · cases port <;> simp_all [isNullish, toBoolean]
        · subst hn; simp [toBoolean]
      simp only [jsOr, hfalse, Bool.false_eq_true, if_false, toStr, Except.ok.injEq] at ht
      subst ht
      rfl

/-- The snapshot with the flag false and a port name shows `Serial:
offline`. -/
theorem connection_indicator_witness :
    (refreshLoop utcHost (statusNet offlineStatus) blankPage).2.serialPill =
        [.text "Serial: offline"] ∧
      (refreshLoop utcHost (statusNet offlineStatus) blankPage).2.serialPillClass =
        ["status-pill", "danger"] :=
  (connection_indicator utcHost (statusNet offlineStatus) blankPage offlineStatus
    (.bool false) rfl (by decide) (by decide) rfl).1 rfl

/-! ## The heartbeat -/

/-- C13, refuted as stated: with `last_update: 0` the heartbeat keeps the
earlier text `12:34:56`, although the time formatting of the timestamp 0 is
`00:00:00` on this host. -/
theorem heartbeat_epoch_counterexample :
    (refreshLoop utcHost (statusNet epochStatus) shownPage).2.heartbeat =
        [.text "12:34:56"] ∧
      formatDate utcHost (timeValue (.fin 0)) = .ok "00:00:00" ∧
      [Node.text "12:34:56"] ≠ textNodes "00:00:00" := by
  refine ⟨rfl, by decide, ?_⟩
  simp [textNodes]

/-- C13 (amended): for every fetched status that is present and plain, the
heartbeat the cycle leaves is the time formatting of `last_update` when that
is a non-zero finite Number with `|last_update| * 1000` at most 8.64e15: the
text of the time value `t` of `new Date(last_update * 1000)`, which is the
double product truncated and lies within 1.5 ms of the exact product; it is
the earlier heartbeat when `last_update` is falsy, which covers absent,
`null`, 0 and NaN; and it is the earlier heartbeat as well when the date is
not valid, as it is from 8.64e15 + 1 ms on. -/
theorem heartbeat_display (h : Host) (net : String → FetchResult) (w : World)
    (status lastUpdate : JSVal) (hnet : net "/api/status" = .json status)
    (hs : isNullish status = false) (hp : status.plain = true)
    (hl : getProp status "last_update" = .ok lastUpdate) :
    (∀ q : ℚ, lastUpdate = .num (.fin q) → q ≠ 0 → |q| * 1000 ≤ 8640000000000000 →
      ∃ t : ℤ, timeValue (.fin q) = some t ∧ abs ((t : ℚ) - q * 1000) < 3 / 2 ∧
        (refreshLoop h net w).2.heartbeat = textNodes (h.formatTime t)) ∧
    (toBoolean lastUpdate = false → (refreshLoop h net w).2.heartbeat = w.heartbeat) ∧
    (isNullish lastUpdate = true ∨ lastUpdate = .num (.fin 0) ∨ lastUpdate = .num .nan →
      (refreshLoop h net w).2.heartbeat = w.heartbeat) ∧
    (∀ q : ℚ, lastUpdate = .num (.fin q) → timeValue (.fin q) = none →
      (refreshLoop h net w).2.heartbeat = w.heartbeat) ∧
    (∀ q : ℚ, 8640000000000001 ≤ |q| * 1000 → timeValue (.fin q) = none) := by
  obtain ⟨_, _, _, _, _, _, _, _, _, -, -, -, -, -, -, -, -, -, hitems⟩ :=
    statItems_ok_of_plain h status hs hp
  obtain ⟨-, -, -, f4⟩ := refreshLoop_status_fields h net w
  rw [f4, statusBlock_of_json h net w status _ hnet hitems]
  have hc := getProp_of_not_nullish status "serial_connected" hs
  obtain ⟨text, ht⟩ := pillText_ok h status (getPropOpt status "serial_connected") hs hp
  obtain ⟨b1, b2, b3⟩ := showConnection_heartbeat h status _ lastUpdate text
    { w with requests := w.requests ++ ["/api/status"], statsGrid := _ } hc ht hl
  refine ⟨?_, ?_, ?_, ?_, fun q hq => timeValue_of_beyond q hq⟩
  · intro q hq hne hrange
    subst hq
    obtain ⟨t, htv, hacc⟩ := timeValue_of_range q hrange
    exact ⟨t, htv, hacc, b2 (.fin q) t (by simp [toBoolean, hne]) rfl htv⟩
  · intro hf
    exact b1 hf
  · intro habsent
    apply b1
    rcases habsent with hn | hn | hn
    · cases lastUpdate <;> simp_all [isNullish, toBoolean]
    · subst hn; simp [toBoolean]
    · subst hn; rfl
  · intro q hq hnone
    subst hq
    have hz : q ≠ 0 := by
      intro hz
      subst hz
      simp [timeValue] at hnone
    exact (b3 (.fin q) (by simp [toBoolean, hz]) rfl hnone).1

/-- The snapshot with `last_update: -7763362976592.001` puts `20:16:47`, the
second of the rounded product, in place of the earlier heartbeat. -/
theorem heartbeat_display_witness :
    (refreshLoop utcHost (statusNet ancientStatus) shownPage).2.heartbeat =
        [.text "20:16:47"] ∧
      timeValue (.fin lit_ancient) = some (-7763362976592001) := by
  obtain ⟨t, htv, -, hbeat⟩ :=
    (heartbeat_display utcHost (statusNet ancientStatus) shownPage ancientStatus
      (.num (.fin lit_ancient)) rfl (by decide) (by decide) rfl).1 lit_ancient rfl
      (by decide)
      (by exact_mod_cast (timeValue_range_iff lit_ancient 8640000000000000).mp (by decide))
  have hval : timeValue (.fin lit_ancient) = some (-7763362976592001) := by decide
  have ht : t = -7763362976592001 := by
    rw [hval, Option.some.injEq] at htv
    exact htv.symm
  subst ht
  exact ⟨hbeat.trans rfl, hval⟩

/-! ## A failed status poll -/

/-- C18: when the status fetch rejects or its body is not JSON, the cycle
leaves the metric grid, the text and the classes of the connection pill and
the heartbeat as they were, and logs the failure. -/
theorem failed_status_poll (h : Host) (net : String → FetchResult) (w : World)
    (hfail : net "/api/status" = .rejected ∨ net "/api/status" = .unparsable) :
    (refreshLoop h net w).2.statsGrid = w.statsGrid ∧
    (refreshLoop h net w).2.serialPill = w.serialPill ∧
    (refreshLoop h net w).2.serialPillClass = w.serialPillClass ∧
    (refreshLoop h net w).2.heartbeat = w.heartbeat ∧
    (refreshLoop h net w).1 = .ok () := by
  obtain ⟨f1, f2, f3, f4⟩ := refreshLoop_status_fields h net w
  obtain ⟨hw, -⟩ := statusBlock_of_failure h net w hfail
  rw [f1, f2, f3, f4, hw]
  refine ⟨rfl, rfl, rfl, rfl, ?_⟩
  rw [refreshLoop_eq]
  exact (tryCatch_consoleError _ _ _).1

/-- With every request rejected the page shown earlier stays as it was. -/
theorem failed_status_poll_witness :
    (refreshLoop utcHost downNet shownPage).2.serialPill = [.text "Serial: /dev/ttyUSB0"] ∧
      (refreshLoop utcHost downNet shownPage).2.serialPillClass =
        ["status-pill", "success"] ∧
      (refreshLoop utcHost downNet shownPage).2.heartbeat = [.text "12:34:56"] := by
  obtain ⟨-, h2, h3, h4, -⟩ := failed_status_poll utcHost downNet shownPage (Or.inl rfl)
  exact ⟨h2, h3, h4⟩

/-! ## The meta line -/

/-- C14, refuted as stated: for the event with `timestamp: 0` and `score:
0.5` the meta line is the single dash, not the time `00:00:00` followed by
the confidence. -/
theorem metaText_epoch_counterexample :
    metaText utcHost epochEvent = .ok "—" ∧
      formatDate utcHost (timeValue (.fin 0)) = .ok "00:00:00" ∧
      (renderEvents utcHost (.arr [epochEvent]) blankPage).2.eventsList =
        [.elem "div" ["event-card"] [
          .elem "div" ["title"] [.text "No target"],
          .elem "span" ["badge", "danger"] [.text "idle"],
          .elem "div" ["meta"] [.text "—"]]] := by
  refine ⟨by decide, by decide, rfl⟩

/-- C14 (amended): for every event, the meta line is the time formatting of
the timestamp, the separator ` · conf ` and the confidence (the score by
`toFixed(2)`, the dash when the score is absent) when the timestamp is a
non-zero finite Number with `|timestamp| * 1000` at most 8.64e15: the time
is the text of the time value `t` of `new Date(timestamp * 1000)`, which is
the double product truncated and lies within 1.5 ms of the exact product;
the meta line is the single dash when the timestamp is falsy, which covers
absent, `null`, 0 and NaN; and when the date is not valid, as it is from
8.64e15 + 1 ms on, the derivation throws a RangeError and no card is made. -/
theorem metaText_timestamp (h : Host) (event timestamp score : JSVal)
    (ht : getProp event "timestamp" = .ok timestamp)
    (hsc : getProp event "score" = .ok score) :
    (∀ q : ℚ, timestamp = .num (.fin q) → q ≠ 0 → |q| * 1000 ≤ 8640000000000000 →
      ∃ t : ℤ, timeValue (.fin q) = some t ∧ abs ((t : ℚ) - q * 1000) < 3 / 2 ∧
        (isNullish score = true →
          metaText h event = .ok (h.formatTime t ++ " · conf " ++ dash)) ∧
        (∀ (s : ℚ) (conf : String), score = .num (.fin s) →
          toFixed h (.fin s) (.num (.fin 2)) = .ok conf →
          metaText h event = .ok (h.formatTime t ++ " · conf " ++ conf))) ∧
    (toBoolean timestamp = false → metaText h event = .ok dash) ∧
    (isNullish timestamp = true ∨ timestamp = .num (.fin 0) ∨ timestamp = .num .nan →
      metaText h event = .ok dash) ∧
    (∀ q : ℚ, timestamp = .num (.fin q) → timeValue (.fin q) = none →
      metaText h event = .error .rangeError ∧ ∀ card, eventCard h event ≠ .ok card) ∧
    (∀ q : ℚ, 8640000000000001 ≤ |q| * 1000 → timeValue (.fin q) = none) := by
  have hfalse : toBoolean timestamp = false → metaText h event = .ok dash := by
    intro hf
    simp [metaText, ht, hf, bind, Except.bind, pure, Except.pure]
  refine ⟨?_, hfalse, ?_, ?_, fun q hq => timeValue_of_beyond q hq⟩
  · intro q hq hne hrange
    subst hq
    obtain ⟨t, htv, hacc⟩ := timeValue_of_range q hrange
    have hb : toBoolean (.num (.fin q)) = true := by simp [toBoolean, hne]
    refine ⟨t, htv, hacc, ?_, ?_⟩
    · intro hnull
      simp [metaText, ht, hsc, hb, bind, Except.bind, pure, Except.pure, toNumber, htv,
        formatDate, fmtNumber_nullish h score _ hnull]
    · intro s conf hs hconf
      subst hs
      simp [metaText, ht, hsc, hb, bind, Except.bind, pure, Except.pure, toNumber, htv,
        formatDate, fmtNumber, isNullish, JSNum.isNaN, hconf]
  · intro habsent
    apply hfalse
    rcases habsent with hn | hn | hn
    · cases timestamp <;> simp_all [isNullish, toBoolean]
    · subst hn; simp [toBoolean]
    · subst hn; rfl
  · intro q hq hnone
    subst hq
    have hz : q ≠ 0 := by
      intro hz
      subst hz
      simp [timeValue] at hnone
    have hb : toBoolean (.num (.fin q)) = true := by simp [toBoolean, hz]
    have hmeta : metaText h event = .error .rangeError := by
      simp [metaText, ht, hb, bind, Except.bind, toNumber, hnone, formatDate]
    refine ⟨hmeta, ?_⟩
    intro card
    cases htitle : titleText h event with
    | error e => simp [eventCard, htitle, bind, Except.bind]
    | ok title => simp [eventCard, htitle, hmeta, bind, Except.bind]

/-- The event dated 1700000000.29 with the score 0.5: the time value is the
rounded product 1700000000290. -/
theorem metaText_timestamp_witness :
    metaText utcHost fractionEvent = .ok "22:13:20 · conf 0.50" ∧
      timeValue (.fin lit_fraction) = some 1700000000290 := by
  obtain ⟨t, htv, -, -, hmeta⟩ :=
    (metaText_timestamp utcHost fractionEvent (.num (.fin lit_fraction))
      (.num (.fin (mkRat 1 2))) rfl rfl).1 lit_fraction rfl (by decide)
      (by exact_mod_cast (timeValue_range_iff lit_fraction 8640000000000000).mp (by decide))
  have hval : timeValue (.fin lit_fraction) = some 1700000000290 := by decide
  have ht : t = 1700000000290 := by
    rw [hval, Option.some.injEq] at htv
    exact htv.symm
  subst ht
  refine ⟨?_, hval⟩
  rw [hmeta (mkRat 1 2) "0.50" rfl (by decide)]
  decide

/-! ## One card per event -/

theorem titleText_ok_of_plain (h : Host) (event : JSVal) (hs : isNullish event = false)
    (hp : event.plain = true) : ∃ title, titleText h event = .ok title := by
  obtain ⟨u, hu⟩ := fmtNumber_ok_of_plain h
    (getPropOpt (getPropOpt event "pixel") "u") 0 (by omega)
    (plain_getPropOpt _ _ (plain_getPropOpt _ _ hp))
  obtain ⟨v, hv⟩ := fmtNumber_ok_of_plain h
    (getPropOpt (getPropOpt event "pixel") "v") 0 (by omega)
    (plain_getPropOpt _ _ (plain_getPropOpt _ _ hp))
  obtain ⟨t, htext⟩ := toStr_ok_of_plain h (jsOr (getPropOpt event "message") (.str "event"))
    (plain_jsOr _ (.str "event") (plain_getPropOpt _ _ hp) rfl)
  simp only [Nat.cast_zero] at hu hv
  simp only [titleText, getProp_of_not_nullish event _ hs, bind, Except.bind, pure,
    Except.pure, hu, hv, htext]
  split
  · exact ⟨_, rfl⟩
  · split
    · exact ⟨_, rfl⟩
    · split
      · exact ⟨_, rfl⟩
      · exact ⟨_, rfl⟩

theorem badgeNode_ok (event : JSVal) (hs : isNullish event = false) :
    ∃ badge, badgeNode event = .ok badge := by
  simp only [badgeNode, getProp_of_not_nullish event _ hs, bind, Except.bind, pure,
    Except.pure]
  split
  · exact ⟨_, rfl⟩
  · split
    · exact ⟨_, rfl⟩
    · exact ⟨_, rfl⟩

theorem eventCard_ok_of_plain (h : Host) (event : JSVal) (hs : isNullish event = false)
    (hp : event.plain = true)
    (hts : toBoolean (getPropOpt event "timestamp") = false ∨
      ∃ q : ℚ, getPropOpt event "timestamp" = .num (.fin q) ∧
        |q| * 1000 ≤ 8640000000000000) :
    ∃ card, eventCard h event = .ok card := by
  obtain ⟨title, htitle⟩ := titleText_ok_of_plain h event hs hp
  obtain ⟨badge, hbadge⟩ := badgeNode_ok event hs
  obtain ⟨conf, hconf⟩ := fmtNumber_ok_of_plain h (getPropOpt event "score") 2 (by omega)
    (plain_getPropOpt _ _ hp)
  simp only [Nat.cast_ofNat] at hconf
  have hmeta : ∃ meta, metaText h event = .ok meta := by
    simp only [metaText, getProp_of_not_nullish event _ hs, bind, Except.bind, pure,
      Except.pure]
    rcases hts with hf | ⟨q, hq, hrange⟩
    · simp [hf]
    · obtain ⟨t, htv, -⟩ := timeValue_of_range q hrange
      rw [hq]
      split
      · simp [toNumber, htv, formatDate, hconf]
      · exact ⟨_, rfl⟩
  obtain ⟨meta, hmeta⟩ := hmeta
  refine ⟨.elem "div" ["event-card"] [.elem "div" ["title"] (textNodes title), badge,
    .elem "div" ["meta"] (textNodes meta)], ?_⟩
  simp [eventCard, htitle, hmeta, hbadge, bind, Except.bind, pure, Except.pure]

theorem forall₂_get? {α β : Type} (R : α → β → Prop) (l1 : List α) (l2 : List β)
    (hall : List.Forall₂ R l1 l2) (i : ℕ) (a : α) (ha : l1.get? i = some a) :
    ∃ b, l2.get? i = some b ∧ R a b := by
  induction hall generalizing i with
  | nil => simp at ha
  | cons hab _ ih =>
    cases i with
    | zero =>
      simp only [List.get?_cons_zero, Option.some.injEq] at ha
      subst ha
      exact ⟨_, rfl, hab⟩
    | succ j => exact ih j (by simpa using ha)

theorem renderEventsLoop_all_ok (h : Host) (events : List JSVal) (w : World)
    (hall : ∀ event ∈ events, ∃ card, eventCard h event = .ok card) :
    ∃ cards, List.Forall₂ (fun event card => eventCard h event = .ok card) events cards ∧
      renderEventsLoop h events w =
        (.ok (), { w with eventsList := w.eventsList ++ cards }) := by
  induction events generalizing w with
  | nil => exact ⟨[], List.Forall₂.nil, by simp [renderEventsLoop]⟩
  | cons event rest ih =>
    obtain ⟨card, hcard⟩ := hall event (by simp)
    obtain ⟨cards, hcards, hloop⟩ := ih { w with eventsList := w.eventsList ++ [card] }
      (fun e he => hall e (by simp [he]))
    refine ⟨card :: cards, List.Forall₂.cons hcard hcards, ?_⟩
    simp only [renderEventsLoop, hcard, hloop]
    simp

/-- C15: for every non-empty list of events each of which yields a card,
`renderEvents` completes and leaves the feed holding exactly one card per
event in the input order: the feed has the length of the list and its
`i`-th card is the card derived from the `i`-th event, whatever the feed held
before. -/
theorem renderEvents_one_card_per_event (h : Host) (events : List JSVal) (w : World)
    (hne : events ≠ [])
    (hall : ∀ event ∈ events, ∃ card, eventCard h event = .ok card) :
    ∃ cards,
      renderEvents h (.arr events) w = (.ok (), { w with eventsList := cards }) ∧
      cards.length = events.length ∧
      List.Forall₂ (fun event card => eventCard h event = .ok card) events cards ∧
      (∀ i event, events.get? i = some event →
        ∃ card, cards.get? i = some card ∧ eventCard h event = .ok card) := by
  obtain ⟨cards, hcards, hloop⟩ :=
    renderEventsLoop_all_ok h events { w with eventsList := [] } hall
  refine ⟨cards, ?_, hcards.length_eq.symm, hcards, ?_⟩
  · cases events with
    | nil => exact absurd rfl hne
    | cons event rest =>
      simp only [renderEvents]
      rw [hloop]
      simp
  · intro i event hi
    exact forall₂_get? _ events cards hcards i event hi

/-- Two events on a feed that held a stale card: two cards, in the order of
the events. -/
theorem renderEvents_one_card_per_event_witness :
    ∃ cards,
      renderEvents utcHost (.arr [targetEvent, datedEvent])
          { blankPage with eventsList := [.text "stale"] } =
        (.ok (), { blankPage with eventsList := cards }) ∧
      cards.length = 2 ∧
      (∃ card, cards.get? 0 = some card ∧ eventCard utcHost targetEvent = .ok card) ∧
      (∃ card, cards.get? 1 = some card ∧ eventCard utcHost datedEvent = .ok card) ∧
      eventCard utcHost datedEvent = .ok (.elem "div" ["event-card"] [
        .elem "div" ["title"] [.text "No target"],
        .elem "span" ["badge", "warning"] [.text "holding"],
        .elem "div" ["meta"] [.text "22:13:20 · conf 0.50"]]) := by
  obtain ⟨cards, h1, h2, -, h4⟩ :=
    renderEvents_one_card_per_event utcHost [targetEvent, datedEvent]
      { blankPage with eventsList := [.text "stale"] } (by simp)
      (fun event he => by
        simp only [List.mem_cons, List.mem_singleton, List.not_mem_nil, or_false] at he
        rcases he with he | he
        · subst he
          exact eventCard_ok_of_plain utcHost targetEvent (by decide) (by decide)
            (Or.inl (by decide))
        · subst he
          exact eventCard_ok_of_plain utcHost datedEvent (by decide) (by decide)
            (Or.inr ⟨1700000000, rfl, by norm_num [abs_of_nonneg]⟩))
  exact ⟨cards, h1, h2, h4 0 targetEvent rfl, h4 1 datedEvent rfl, rfl⟩

/-! ## Full replacement of a region -/

/-- C16: for all inputs `a` and `b` and every prior content, rendering `a`
and then `b` leaves the metric grid, respectively the event feed, exactly as
rendering `b` alone on an empty page does, and completes the same way; so
does rendering `b` on any page. -/
theorem render_replaces_region (h : Host) (a b : JSVal) (w : World) :
    (renderStats h b (renderStats h a w).2).2.statsGrid =
      (renderStats h b blankPage).2.statsGrid ∧
    (renderStats h b (renderStats h a w).2).1 = (renderStats h b blankPage).1 ∧
    (renderEvents h b (renderEvents h a w).2).2.eventsList =
      (renderEvents h b blankPage).2.eventsList ∧
    (renderEvents h b (renderEvents h a w).2).1 = (renderEvents h b blankPage).1 ∧
    (renderStats h b w).2.statsGrid = (renderStats h b blankPage).2.statsGrid ∧
    (renderEvents h b w).2.eventsList = (renderEvents h b blankPage).2.eventsList ∧
    blankPage.statsGrid = [] ∧ blankPage.eventsList = [] := by
  refine ⟨?_, ?_, ?_, ?_, ?_, ?_, rfl, rfl⟩
  · rw [renderStats_eq h b (renderStats h a w).2]
  · rw [renderStats_eq h b (renderStats h a w).2]
  · rw [renderEvents_eq h b (renderEvents h a w).2]
  · rw [renderEvents_eq h b (renderEvents h a w).2]
  · rw [renderStats_eq h b w]
  · rw [renderEvents_eq h b w]

/-- Two events rendered, then one: the feed holds the card of the one. -/
theorem render_replaces_region_witness :
    (renderEvents utcHost (.arr [datedEvent])
        (renderEvents utcHost (.arr [targetEvent, targetEvent]) shownPage).2).2.eventsList =
      [.elem "div" ["event-card"] [
        .elem "div" ["title"] [.text "No target"],
        .elem "span" ["badge", "warning"] [.text "holding"],
        .elem "div" ["meta"] [.text "22:13:20 · conf 0.50"]]] :=
  ((render_replaces_region utcHost (.arr [targetEvent, targetEvent]) (.arr [datedEvent])
    shownPage).2.2.1).trans rfl

/-! ## The six metric cards -/

theorem variant_cases (n : JSNum) (t : Thresholds) :
    (if n.isNaN then "" else if n.ge t.good then "success"
      else if n.le t.bad then "danger" else "") ∈ ["", "success", "danger"] := by
  split
  · simp
  · split
    · simp
    · split <;> simp

theorem statCard_eq_metricCard (label value variant : String) (hl : label ≠ "")
    (hv : variant ∈ ["", "success", "danger"]) :
    ∃ classes, statCard ⟨label, value, variant⟩ = metricCard label value classes ∧
      classes ∈ [["stat-value"], ["stat-value", "success"], ["stat-value", "danger"]] ∧
      (variant = "" → classes = ["stat-value"]) := by
  simp only [List.mem_cons, List.mem_singleton, List.not_mem_nil, or_false] at hv
  rcases hv with hv | hv | hv <;> subst hv
  · exact ⟨["stat-value"], by simp [statCard, metricCard, textNodes, hl], by simp, fun _ => rfl⟩
  · exact ⟨["stat-value", "success"],
      by simp [statCard, metricCard, textNodes, hl, classListAdd], by simp, by simp⟩
  · exact ⟨["stat-value", "danger"],
      by simp [statCard, metricCard, textNodes, hl, classListAdd], by simp, by simp⟩

/-- C17: for every present snapshot whose values are plain, whatever fields
it has or lacks, `renderStats` completes and leaves the grid holding exactly
six cards, labelled FPS, Last Score, Pan, Tilt, Pixel and Ground XYZ in that
order; the value of Pan, Tilt, Pixel and Ground XYZ has the class
`stat-value` alone, and the value of FPS and of Last Score has that class
alone or with `success` or `danger`. -/
theorem renderStats_six_cards (h : Host) (status : JSVal) (w : World)
    (hs : isNullish status = false) (hp : status.plain = true) :
    ∃ (fpsValue scoreValue pan tilt pixel ground : String)
      (fpsClasses scoreClasses : List String),
      renderStats h status w = (.ok (), { w with statsGrid := [
        metricCard "FPS" fpsValue fpsClasses,
        metricCard "Last Score" scoreValue scoreClasses,
        metricCard "Pan" pan ["stat-value"],
        metricCard "Tilt" tilt ["stat-value"],
        metricCard "Pixel" pixel ["stat-value"],
        metricCard "Ground XYZ" ground ["stat-value"]] }) ∧
      fpsClasses ∈ [["stat-value"], ["stat-value", "success"], ["stat-value", "danger"]] ∧
      scoreClasses ∈ [["stat-value"], ["stat-value", "success"], ["stat-value", "danger"]] := by
  obtain ⟨fps, score, pan, tilt, pixel, ground, fpsValue, fpsVariant, sVariant,
    -, -, -, -, -, -, -, h8, h9, hitems⟩ := statItems_ok_of_plain h status hs hp
  have hfv : fpsVariant ∈ ["", "success", "danger"] := by
    rw [classByVariant_num, Except.ok.injEq] at h8
    rw [← h8]
    exact variant_cases fps fpsThresholds
  have hsv : sVariant ∈ ["", "success", "danger"] := by
    simp only [scoreVariant, getProp_of_not_nullish status _ hs, bind, Except.bind] at h9
    cases hn : toNumber h (jsCoalesce (getPropOpt status "score") (.num (.fin 0))) with
    | error e => rw [hn] at h9; simp at h9
    | ok n =>
      rw [hn] at h9
      simp only [classByVariant_num, Except.ok.injEq] at h9
      rw [← h9]
      exact variant_cases n scoreThresholds
  obtain ⟨c1, e1, m1, -⟩ := statCard_eq_metricCard "FPS" fpsValue fpsVariant (by decide) hfv
  obtain ⟨c2, e2, m2, -⟩ := statCard_eq_metricCard "Last Score" score sVariant (by decide) hsv
  obtain ⟨c3, e3, -, n3⟩ := statCard_eq_metricCard "Pan" pan "" (by decide) (by simp)
  obtain ⟨c4, e4, -, n4⟩ := statCard_eq_metricCard "Tilt" tilt "" (by decide) (by simp)
  obtain ⟨c5, e5, -, n5⟩ := statCard_eq_metricCard "Pixel" pixel "" (by decide) (by simp)
  obtain ⟨c6, e6, -, n6⟩ := statCard_eq_metricCard "Ground XYZ" ground "" (by decide) (by simp)
  rw [n3 rfl] at e3
  rw [n4 rfl] at e4
  rw [n5 rfl] at e5
  rw [n6 rfl] at e6
  refine ⟨fpsValue, score, pan, tilt, pixel, ground, c1, c2, ?_, m1, m2⟩
  rw [renderStats_of_items h status w _ hitems]
  simp only [List.map_cons, List.map_nil, e1, e2, e3, e4, e5, e6]

/-- A snapshot with some fields present and the others missing: six cards in
the fixed order. -/
theorem renderStats_six_cards_witness :
    (∃ (fpsValue scoreValue pan tilt pixel ground : String)
      (fpsClasses scoreClasses : List String),
      renderStats utcHost offlineStatus blankPage = (.ok (), { blankPage with statsGrid := [
        metricCard "FPS" fpsValue fpsClasses,
        metricCard "Last Score" scoreValue scoreClasses,
        metricCard "Pan" pan ["stat-value"],
        metricCard "Tilt" tilt ["stat-value"],
        metricCard "Pixel" pixel ["stat-value"],
        metricCard "Ground XYZ" ground ["stat-value"]] }) ∧
      fpsClasses ∈ [["stat-value"], ["stat-value", "success"], ["stat-value", "danger"]] ∧
      scoreClasses ∈ [["stat-value"], ["stat-value", "success"], ["stat-value", "danger"]]) ∧
    (renderStats utcHost offlineStatus blankPage).2.statsGrid = [
      metricCard "FPS" "15.0" ["stat-value", "success"],
      metricCard "Last Score" "0.20" ["stat-value", "danger"],
      metricCard "Pan" "—" ["stat-value"],
      metricCard "Tilt" "—" ["stat-value"],
      metricCard "Pixel" "—" ["stat-value"],
      metricCard "Ground XYZ" "—" ["stat-value"]] :=
  ⟨renderStats_six_cards utcHost offlineStatus blankPage (by decide) (by decide), rfl⟩

end Dashboard
